import Mathlib

/-!
Verification model of the streaming transcription session engine of
Taiwan-Tongues-ASR-CE.

The embedding translates, from the Python sources:

* `api/stt_streaming/src/client.py` — the `Client` session container
  (`buffer`, `scratch_buffer`, `session_audio_buffer`, `last_start_time`,
  `append_audio_data`, `update_config`);
* `api/stt_streaming/src/buffering_strategy/buffering_strategies.py` — the
  `SilenceAtEndOfChunk` strategy (`process_audio`, `process_audio_async`);
* `api/stt_streaming/src/vad/simple_vad.py` — `SimpleVAD.detect_activity`;
* `api/streaming_asr.py` — the capacity check of
  `streaming_stt_recognization` and `ResponseCode` / `Settings`.

Modelling conventions:

* Byte buffers are modelled by their byte counts (`Nat`); the claims under
  study are about byte accounting, sizes and control flow, never about the
  byte values themselves.
* Python floats are modelled as rationals (`ℚ`); `int(x)` is truncation
  toward zero (`pyInt`), `round(x, 3)` is round-half-to-even at the third
  decimal (`round3`).
* `process_audio_async` suspends at exactly two points: `await
  vad_pipeline.detect_activity(...)` (line 110) and `await
  asr_pipeline.transcribe(...)` (line 127).  The coroutine is therefore
  split into the two resumption segments `run_vad` (from entry through the
  code that follows the VAD result, up to the transcribe await or to
  completion) and `run_asr` (from the transcribe result to completion).
  An `asyncio.create_task` call appends a `Task` record holding the values
  captured by the call (`start_time`, `client.last_start_time`) together
  with the fields of the owning strategy object.
* `Client.update_config` rebuilds the buffering strategy through
  `BufferingStrategyFactory`; the factory itself is not among the given
  sources, but per the spec it constructs a fresh `SilenceAtEndOfChunk`
  from the configured `processing_args`, which is what
  `SilenceAtEndOfChunk.__init__` (lines 22-47 of the source, with the
  `BUFFERING_*` environment variables unset) does.  A strategy object is
  identified by a generation number `gen`; writes performed by a running
  task on its owning (possibly replaced) strategy object are visible only
  while that object is still the current one.
* Instrumentation fields (`deliveredBytes`, `discardedBytes`, `warnings`,
  `spawnLog`, `emitLog`, `inFlight`) record observations (bytes handed to
  the recognizer, bytes dropped, warning log lines, task creations, result
  emissions, recognition attempts currently between the start of their
  `transcribe` call and its completion); they influence no behaviour.
  `deliveredBytes` is credited at the *start* of the `transcribe` call:
  `FasterWhisperASR.transcribe` reads `client.scratch_buffer` and saves it
  to the wav file in its first synchronous segment
  (`faster_whisper_asr.py`, line 155), before any suspension — i.e. in the
  same atomic region as the trigger decision of `process_audio_async`.
  The scratch buffer itself is only cleared at completion (line 179 of
  `buffering_strategies.py`), so with two attempts in flight the same
  bytes can be handed to the recognizer twice, or bytes promoted
  mid-flight can be destroyed without ever being delivered.
-/

namespace STT

/-- Python `int(x)` on a rational: truncation toward zero. -/
def pyInt (q : ℚ) : ℤ := if 0 ≤ q then ⌊q⌋ else -⌊-q⌋

/-- Python `round` at integer precision: round half to even. -/
def roundHalfEven (q : ℚ) : ℤ :=
  if q - ⌊q⌋ < 1/2 then ⌊q⌋
  else if 1/2 < q - ⌊q⌋ then ⌊q⌋ + 1
  else if ⌊q⌋ % 2 = 0 then ⌊q⌋ else ⌊q⌋ + 1

/-- Python `round(x, 3)` on a rational. -/
def round3 (q : ℚ) : ℚ := (roundHalfEven (q * 1000) : ℚ) / 1000

/-- One detected speech interval, as returned by a VAD pipeline
(source keys: `start`, `end`, `confidence`). -/
structure VadInterval where
  startSec : ℚ
  endSec : ℚ
  confidence : ℚ
deriving DecidableEq, Repr

/-- `SimpleVAD.detect_activity` (`simple_vad.py`, lines 22-45), as a function
of the detector's `min_duration` and of the client fields it reads:
`len(client.scratch_buffer)`, `client.sampling_rate`, `client.samples_width`. -/
def SimpleVAD.detect_activity (min_duration : ℚ)
    (scratchLen sampling_rate samples_width : Nat) : List VadInterval :=
  if scratchLen = 0 then []
  else
    let audio_duration : ℚ := (scratchLen : ℚ) / ((sampling_rate : ℚ) * (samples_width : ℚ))
    if audio_duration < min_duration then []
    else [⟨0, audio_duration, 1⟩]

/-- The fields of an ASR transcription dict that `process_audio_async`
reads when the result is not `None` and carries a `"text"` key
(`faster_whisper_asr.py` always includes `"text"` in a non-`None` result). -/
structure Transcription where
  text : String
  duration : ℚ
deriving DecidableEq, Repr

/-- A result message as built in `process_audio_async` lines 145-158 and
appended to `client.transcript` (the fields the claims are about; the
constant `id`/`segment`/`final`/`message` fields are omitted). -/
structure Payload where
  code : Nat
  startTime : ℚ
  endTime : ℚ
  transcript : String
deriving DecidableEq, Repr

/-- Outcome of an awaited `detect_activity` call: a value, or an exception
propagating out of the await. -/
inductive VadOutcome where
  | ok (intervals : List VadInterval)
  | raised
deriving DecidableEq, Repr

/-- Outcome of an awaited `transcribe` call: `ok none` models a `None`
return, `ok (some t)` a result dict, `raised` an exception. -/
inductive AsrOutcome where
  | ok (t : Option Transcription)
  | raised
deriving DecidableEq, Repr

/-- Progress of one spawned `process_audio_async` task: suspended at the
`detect_activity` await, or suspended at the `transcribe` await with the
already-computed `start_transcribe_time`. -/
inductive TaskStage where
  | beforeVad
  | beforeAsr (start_transcribe_time : ℚ)
deriving DecidableEq, Repr

/-- One in-flight `process_audio_async` task: the owning strategy object's
generation and `chunk_offset_seconds`, and the `start_time` /
`default_start_time` arguments captured at `asyncio.create_task`
(lines 81-89). -/
structure Task where
  gen : Nat
  startTime : ℚ
  defaultStartTime : ℚ
  chunk_offset_seconds : ℚ
  stage : TaskStage
deriving DecidableEq, Repr

/-- Mutable state of a `SilenceAtEndOfChunk` strategy object
(`buffering_strategies.py`, lines 22-47). -/
structure StrategyState where
  chunk_length_seconds : ℚ
  chunk_offset_seconds : ℚ
  processing_flag : Bool
  start_time : Option ℚ
deriving DecidableEq, Repr

/-- `SilenceAtEndOfChunk.__init__` with the `BUFFERING_*` environment
variables unset: parameters from `processing_args`, `processing_flag`
false, `start_time` `None` (lines 30-47). -/
def SilenceAtEndOfChunk.init (chunk_length_seconds chunk_offset_seconds : ℚ) :
    StrategyState :=
  { chunk_length_seconds := chunk_length_seconds
    chunk_offset_seconds := chunk_offset_seconds
    processing_flag := false
    start_time := none }

/-- State of one streaming session: the `Client` fields the claims are
about, the current strategy object (with its generation number), the set of
in-flight `process_audio_async` tasks keyed by a spawn counter, and
instrumentation fields. -/
structure SessionState where
  /-- `len(client.buffer)` — pending audio not yet promoted. -/
  buffer : Nat
  /-- `len(client.scratch_buffer)` — the working buffer. -/
  scratch_buffer : Nat
  /-- `len(client.session_audio_buffer)` — every byte ever appended. -/
  session_audio_buffer : Nat
  /-- `client.total_samples` (updated with float division in the source). -/
  total_samples : ℚ
  /-- `client.connect_time` (`None` until first audio). -/
  connect_time : Option ℚ
  /-- `client.last_start_time`. -/
  last_start_time : ℚ
  sampling_rate : Nat
  samples_width : Nat
  /-- `client.file_counter`. -/
  file_counter : Nat
  /-- `client.transcript` — emitted result messages, in emission order. -/
  transcript : List Payload
  /-- the current `client.buffering_strategy` object. -/
  strategy : StrategyState
  /-- generation of the current strategy object (bumped by `update_config`). -/
  gen : Nat
  /-- in-flight `process_audio_async` tasks, keyed by spawn id. -/
  tasks : List (Nat × Task)
  nextTaskId : Nat
  /-- instrumentation: bytes handed to `asr_pipeline.transcribe` — the
  scratch-buffer contents read and saved to the wav file when the call
  starts (`faster_whisper_asr.py`, line 155). -/
  deliveredBytes : Nat
  /-- instrumentation: bytes dropped by the empty-VAD branch (lines 112-116). -/
  discardedBytes : Nat
  /-- instrumentation: count of the line-73 "Error in realtime processing"
  warnings. -/
  warnings : Nat
  /-- instrumentation: `(taskId, captured start_time)` per spawn, in spawn
  order. -/
  spawnLog : List (Nat × ℚ)
  /-- instrumentation: `(taskId, start_transcribe_time)` per emitted result,
  in emission order. -/
  emitLog : List (Nat × ℚ)
  /-- instrumentation: `(taskId, bytes handed to the recognizer)` for every
  recognition attempt whose `transcribe` call has started (its scratch
  bytes are saved to the wav) but not yet completed; the entry of an
  attempt whose recognizer call dies by exception is retained. -/
  inFlight : List (Nat × Nat)
deriving DecidableEq, Repr

/-- `Client.__init__` (`client.py`, lines 22-56): empty buffers, default
`processing_args` `{chunk_length_seconds: 1.5, chunk_offset_seconds: 0.1}`,
strategy built by the factory, `connect_time = None`. -/
def Client.init (sampling_rate samples_width : Nat) (last_start_time : ℚ) :
    SessionState :=
  { buffer := 0
    scratch_buffer := 0
    session_audio_buffer := 0
    total_samples := 0
    connect_time := none
    last_start_time := last_start_time
    sampling_rate := sampling_rate
    samples_width := samples_width
    file_counter := 0
    transcript := []
    strategy := SilenceAtEndOfChunk.init (3/2) (1/10)
    gen := 0
    tasks := []
    nextTaskId := 0
    deliveredBytes := 0
    discardedBytes := 0
    warnings := 0
    spawnLog := []
    emitLog := []
    inFlight := [] }

/-- The client created by `streaming_stt_recognization`
(`streaming_asr.py`, line 366): `Client(user_id, 16000, 2, job_id, 0, [])`. -/
def initialState : SessionState := Client.init 16000 2 0

/-- `Client.append_audio_data` (`client.py`, lines 64-67). -/
def append_audio_data (n : Nat) (s : SessionState) : SessionState :=
  { s with
    buffer := s.buffer + n
    session_audio_buffer := s.session_audio_buffer + n
    total_samples := s.total_samples + (n : ℚ) / (s.samples_width : ℚ) }

/-- `chunk_length_in_bytes` of `process_audio` (lines 66-70). -/
def chunk_length_in_bytes (s : SessionState) : ℚ :=
  s.strategy.chunk_length_seconds * (s.sampling_rate : ℚ) * (s.samples_width : ℚ)

/-- Lines 61-62 of `process_audio`: set `client.connect_time` when it is
`None` and the pending buffer is nonempty. -/
def touch_connect_time (now : ℚ) (s : SessionState) : SessionState :=
  match s.connect_time with
  | none => if 0 < s.buffer then { s with connect_time := some now } else s
  | some _ => s

/-- Lines 63-64 of `process_audio`: set the strategy's `start_time` when it
is `None`. -/
def touch_start_time (now : ℚ) (s : SessionState) : SessionState :=
  match s.strategy.start_time with
  | none => { s with strategy := { s.strategy with start_time := some now } }
  | some _ => s

/-- Lines 72-90 of `process_audio`, the body of the length test: log the
warning when `processing_flag` is already set (lines 72-75), move the
pending buffer into the scratch buffer (77-78), raise the flag (79), spawn
a `process_audio_async` task capturing `start_time` and
`client.last_start_time` (81-89), and reset `start_time` to `None` (90). -/
def promote (s : SessionState) : SessionState :=
  let captured := s.strategy.start_time.getD 0
  { s with
    scratch_buffer := s.scratch_buffer + s.buffer
    buffer := 0
    strategy := { s.strategy with processing_flag := true, start_time := none }
    tasks := s.tasks ++ [(s.nextTaskId,
      { gen := s.gen
        startTime := captured
        defaultStartTime := s.last_start_time
        chunk_offset_seconds := s.strategy.chunk_offset_seconds
        stage := TaskStage.beforeVad })]
    nextTaskId := s.nextTaskId + 1
    warnings := s.warnings + (if s.strategy.processing_flag then 1 else 0)
    spawnLog := s.spawnLog ++ [(s.nextTaskId, captured)] }

/-- `SilenceAtEndOfChunk.process_audio` (lines 49-90): set `connect_time` /
`start_time` if unset, then promote and spawn iff `len(buffer)` strictly
exceeds `chunk_length_in_bytes`. -/
def process_audio (now : ℚ) (s : SessionState) : SessionState :=
  let s2 := touch_start_time now (touch_connect_time now s)
  if chunk_length_in_bytes s2 < (s2.buffer : ℚ) then promote s2 else s2

/-- Write `processing_flag` on the strategy object of generation `g`
(line 115 / line 182 of `process_audio_async`); invisible when that object
has been replaced by `update_config`. -/
def setFlagIfCurrent (g : Nat) (b : Bool) (s : SessionState) : SessionState :=
  if s.gen = g then { s with strategy := { s.strategy with processing_flag := b } }
  else s

/-- Write `start_time` on the strategy object of generation `g` (line 130). -/
def setStartTimeIfCurrent (g : Nat) (v : ℚ) (s : SessionState) : SessionState :=
  if s.gen = g then { s with strategy := { s.strategy with start_time := some v } }
  else s

/-- Look a task up in the in-flight list. -/
def findTask (id : Nat) : List (Nat × Task) → Option Task
  | [] => none
  | (k, t) :: ts => if k = id then some t else findTask id ts

/-- Remove a task from the in-flight list. -/
def removeTask (id : Nat) : List (Nat × Task) → List (Nat × Task)
  | [] => []
  | (k, t) :: ts => if k = id then removeTask id ts else (k, t) :: removeTask id ts

/-- Replace a task's record in the in-flight list. -/
def updateTask (id : Nat) (t1 : Task) : List (Nat × Task) → List (Nat × Task)
  | [] => []
  | (k, t) :: ts =>
    if k = id then (id, t1) :: updateTask id t1 ts else (k, t) :: updateTask id t1 ts

/-- Remove an attempt's entry from the in-flight delivery ledger. -/
def removeFlight (id : Nat) : List (Nat × Nat) → List (Nat × Nat)
  | [] => []
  | (k, d) :: es =>
    if k = id then removeFlight id es else (k, d) :: removeFlight id es

/-- Total byte count of the in-flight delivery ledger. -/
def flightSum : List (Nat × Nat) → Nat
  | [] => 0
  | e :: es => e.2 + flightSum es

/-- `start_transcribe_time` of `process_audio_async` (lines 107-109):
`int(start_time - client.connect_time) + float(default_start_time)`. -/
def start_transcribe_time (s : SessionState) (t : Task) : ℚ :=
  (pyInt (t.startTime - s.connect_time.getD 0) : ℚ) + t.defaultStartTime

/-- `last_segment_should_end_before` of `process_audio_async`
(lines 118-121). -/
def last_segment_should_end_before (s : SessionState) (t : Task) : ℚ :=
  (s.scratch_buffer : ℚ) / ((s.sampling_rate : ℚ) * (s.samples_width : ℚ))
    - t.chunk_offset_seconds

/-- `vad_results[-1]["end"]`: the `end` field of the last element of a
nonempty interval list (`i` is the head, `is` the tail). -/
def lastEndSec (i : VadInterval) : List VadInterval → ℚ
  | [] => i.endSec
  | j :: js => lastEndSec j js

/-- Resume task `id` at its first run (`process_audio_async`,
lines 106-126 and, when no recognition is triggered, line 182).  Line 107
computes `int(start_time - self.client.connect_time)`: when `connect_time`
is still `None` this raises a `TypeError` before the `detect_activity`
await, unwinding the coroutine like any other exception.  Otherwise the
VAD is awaited with outcome `r`.  An exception unwinds the coroutine: no
line after the await runs (in particular neither the buffer clears nor the
`processing_flag` reset).  An empty interval list clears both the scratch
buffer and the pending buffer and resets the flag (lines 112-116).
Otherwise the recognizer is awaited iff the last interval ends before
`last_segment_should_end_before` or that cutoff exceeds 2 (lines 123-126);
when it is not, control falls through to line 182.  When the recognizer
is awaited, `transcribe` reads the scratch buffer and saves it to the wav
file before its first suspension (`faster_whisper_asr.py`, line 155), so
the delivery of the scratch bytes to the recognizer happens in this same
atomic segment: `deliveredBytes` is credited and an `inFlight` ledger
entry is opened here; the scratch buffer itself stays untouched until the
completion segment. -/
def run_vad (id : Nat) (r : VadOutcome) (s : SessionState) : SessionState :=
  match findTask id s.tasks with
  | none => s
  | some t =>
    match t.stage with
    | TaskStage.beforeAsr _ => s
    | TaskStage.beforeVad =>
      match s.connect_time with
      | none => { s with tasks := removeTask id s.tasks }
      | some _ =>
        match r with
        | VadOutcome.raised => { s with tasks := removeTask id s.tasks }
        | VadOutcome.ok [] =>
          setFlagIfCurrent t.gen false
            { s with
              discardedBytes := s.discardedBytes + s.scratch_buffer + s.buffer
              scratch_buffer := 0
              buffer := 0
              tasks := removeTask id s.tasks }
        | VadOutcome.ok (i :: is) =>
          if lastEndSec i is < last_segment_should_end_before s t
              ∨ last_segment_should_end_before s t > 2 then
            let t1 := { t with stage := TaskStage.beforeAsr (start_transcribe_time s t) }
            { s with
              tasks := updateTask id t1 s.tasks
              deliveredBytes := s.deliveredBytes + s.scratch_buffer
              inFlight := s.inFlight ++ [(id, s.scratch_buffer)] }
          else
            setFlagIfCurrent t.gen false { s with tasks := removeTask id s.tasks }

/-- Resume task `id` at the `transcribe` await with outcome `r`
(`process_audio_async`, lines 127-182).  The scratch bytes were already
delivered to the recognizer when the `transcribe` call started (see
`run_vad`); this segment only consumes the result.  An exception unwinds
the coroutine, leaving the scratch buffer (whose bytes were already
saved to the wav) in place.  Otherwise, when the result is a dict with
text, the strategy's `start_time` is set, the result message is emitted
and appended to `client.transcript` (lines 130-175); in either `ok` case
the scratch buffer is cleared — whatever it holds *now*, including bytes
a later promotion concatenated after the delivery — the file counter is
incremented (179-180), the flag reset (182), and the attempt's ledger
entry closed. -/
def run_asr (id : Nat) (now : ℚ) (r : AsrOutcome) (s : SessionState) : SessionState :=
  match findTask id s.tasks with
  | none => s
  | some t =>
    match t.stage with
    | TaskStage.beforeVad => s
    | TaskStage.beforeAsr stv =>
      match r with
      | AsrOutcome.raised => { s with tasks := removeTask id s.tasks }
      | AsrOutcome.ok tr =>
        let s2 :=
          match tr with
          | none => s
          | some tRes =>
            setStartTimeIfCurrent t.gen now
              { s with
                transcript := s.transcript ++
                  [Payload.mk 200 (round3 stv) (round3 (stv + tRes.duration)) tRes.text]
                emitLog := s.emitLog ++ [(id, stv)] }
        setFlagIfCurrent t.gen false
          { s2 with
            scratch_buffer := 0
            file_counter := s2.file_counter + 1
            tasks := removeTask id s2.tasks
            inFlight := removeFlight id s2.inFlight }

/-- `Client.update_config` (`client.py`, lines 58-62): merge the config and
rebuild the buffering strategy from the configured `processing_args`; the
fresh `SilenceAtEndOfChunk` replaces the old object (new generation). -/
def update_config (chunk_length_seconds chunk_offset_seconds : ℚ)
    (s : SessionState) : SessionState :=
  { s with
    strategy := SilenceAtEndOfChunk.init chunk_length_seconds chunk_offset_seconds
    gen := s.gen + 1 }

/-- Events of one session's execution: an audio append, a synchronous
`process_audio` call, a resumption of an in-flight task at one of its two
awaits (with the collaborator's outcome), or a config update.  Events that
read the wall clock carry the `time.time()` value they observe. -/
inductive Ev where
  | append (n : Nat)
  | procAudio (now : ℚ)
  | runVad (id : Nat) (r : VadOutcome)
  | runAsr (id : Nat) (now : ℚ) (r : AsrOutcome)
  | updateConfig (chunk_length_seconds chunk_offset_seconds : ℚ)
deriving DecidableEq, Repr

/-- Interpret one event. -/
def step : Ev → SessionState → SessionState
  | Ev.append n, s => append_audio_data n s
  | Ev.procAudio now, s => process_audio now s
  | Ev.runVad id r, s => run_vad id r s
  | Ev.runAsr id now r, s => run_asr id now r s
  | Ev.updateConfig cl co, s => update_config cl co s

/-- Interpret an event list, left to right. -/
def run (s : SessionState) : List Ev → SessionState
  | [] => s
  | e :: es => run (step e s) es

/-- The wall-clock reading of an event, when it has one. -/
def evTime : Ev → Option ℚ
  | Ev.procAudio now => some now
  | Ev.runAsr _ now _ => some now
  | _ => none

/-- `timesMono lb evs` holds when the wall-clock readings in `evs` are
non-decreasing and bounded below by `lb` (the clock never runs backwards). -/
def timesMono (lb : ℚ) : List Ev → Bool
  | [] => true
  | e :: es =>
    match evTime e with
    | none => timesMono lb es
    | some t => decide (lb ≤ t) && timesMono t es

/-- Schedules along which recognition attempts are sequential and
exception-free: a `process_audio` call whose pending buffer strictly
exceeds the chunk threshold (and which therefore promotes and spawns)
occurs only when no task is in flight, and no `detect_activity` or
`transcribe` await raises.  The code does not enforce this discipline
(see C1/C10); it holds, for example, when each recognition attempt
completes before enough audio for the next promotion arrives. -/
def seqOk (s : SessionState) : List Ev → Bool
  | [] => true
  | e :: es =>
    (match e with
     | Ev.procAudio _ =>
       decide (chunk_length_in_bytes s < (s.buffer : ℚ) → s.tasks = [])
     | Ev.runVad _ r => decide (r ≠ VadOutcome.raised)
     | Ev.runAsr _ _ r => decide (r ≠ AsrOutcome.raised)
     | _ => true) && seqOk (step e s) es

/-- `ResponseCode.BAD_REQUEST` (`streaming_asr.py`, line 65). -/
def BAD_REQUEST : Nat := 400

/-- `Settings.max_streaming_count` (`streaming_asr.py`, lines 70-73). -/
def max_streaming_count : Nat := 10

/-- The rejection message sent by `_send_error_and_close`
(`streaming_asr.py`, lines 168-176). -/
structure RejectionMsg where
  code : Nat
  description : String
deriving DecidableEq, Repr

/-- Outcome of the capacity check in `streaming_stt_recognization`:
either a rejection (no `Client` is constructed, the handler returns and
the connection closes), or admission with the freshly constructed
`Client` of line 366. -/
inductive ConnectOutcome where
  | rejected (msg : RejectionMsg)
  | admitted (client : SessionState)
deriving DecidableEq, Repr

/-- The admission step of `streaming_stt_recognization`
(`streaming_asr.py`, lines 350-366): when `len(connected_clients)` has
reached `max_streaming_count`, send the 400 rejection and return;
otherwise construct `Client(user_id, 16000, 2, job_id, 0, [])`. -/
def admission (connectedCount : Nat) : ConnectOutcome :=
  if max_streaming_count ≤ connectedCount then
    ConnectOutcome.rejected
      { code := BAD_REQUEST, description := "exceeded number of connections" }
  else
    ConnectOutcome.admitted (Client.init 16000 2 0)

/-! ### Basic facts about the step functions -/

theorem touch_connect_eq (now : ℚ) (s : SessionState) :
    ∃ c, (s.connect_time = c ∨ (s.connect_time = none ∧ 0 < s.buffer ∧ c = some now)) ∧
      touch_connect_time now s = { s with connect_time := c } := by
  unfold touch_connect_time
  cases h : s.connect_time with
  | none =>
    by_cases hb : 0 < s.buffer
    · exact ⟨some now, Or.inr ⟨rfl, hb, rfl⟩, by simp [hb]⟩
    · refine ⟨none, Or.inl rfl, ?_⟩
      simp only [hb, if_false]
      conv_rhs => rw [← h]
  | some c =>
    refine ⟨some c, Or.inl rfl, ?_⟩
    conv_rhs => rw [← h]

theorem touch_start_eq (now : ℚ) (s : SessionState) :
    ∃ v, (s.strategy.start_time = some v ∨
        (s.strategy.start_time = none ∧ v = now)) ∧
      touch_start_time now s =
        { s with strategy := { s.strategy with start_time := some v } } := by
  unfold touch_start_time
  cases h : s.strategy.start_time with
  | none => exact ⟨now, Or.inr ⟨rfl, rfl⟩, rfl⟩
  | some v =>
    refine ⟨v, Or.inl rfl, ?_⟩
    conv_rhs => rw [← h]

theorem findTask_removeTask_self (id : Nat) (ts : List (Nat × Task)) :
    findTask id (removeTask id ts) = none := by
  induction ts with
  | nil => rfl
  | cons p ts ih =>
    obtain ⟨k, t⟩ := p
    by_cases h : k = id
    · simp [removeTask, h, ih]
    · simp [removeTask, findTask, h, ih]

theorem findTask_updateTask_self (id : Nat) (t1 : Task) (ts : List (Nat × Task)) :
    findTask id (updateTask id t1 ts) = (findTask id ts).map (fun _ => t1) := by
  induction ts with
  | nil => rfl
  | cons p ts ih =>
    obtain ⟨k, t⟩ := p
    by_cases h : k = id
    · simp [updateTask, findTask, h]
    · simp [updateTask, findTask, h, ih]

/-! ### C8 — admission control -/

/-- C8: when the number of active sessions has already reached the fixed
maximum `max_streaming_count` (default 10), a further connection attempt is
rejected with the 400-class message "exceeded number of connections" and no
`Client` is created (the `rejected` outcome carries no session state; the
handler returns immediately, so admission is never queued). -/
theorem C8_admission (n : Nat) (h : max_streaming_count ≤ n) :
    admission n = ConnectOutcome.rejected
        { code := BAD_REQUEST, description := "exceeded number of connections" } ∧
    400 ≤ BAD_REQUEST ∧ BAD_REQUEST < 500 ∧ max_streaming_count = 10 := by
  refine ⟨?_, by norm_num [BAD_REQUEST], by norm_num [BAD_REQUEST], rfl⟩
  simp [admission, if_pos h]

/-- Witness for C8 at the spec's Scenario C: ten active sessions, the
eleventh connect attempt. -/
theorem C8_admission_witness :
    max_streaming_count ≤ 10 ∧
    (admission 10 = ConnectOutcome.rejected
        { code := BAD_REQUEST, description := "exceeded number of connections" } ∧
     400 ≤ BAD_REQUEST ∧ BAD_REQUEST < 500 ∧ max_streaming_count = 10) :=
  ⟨by norm_num [max_streaming_count],
   C8_admission 10 (by norm_num [max_streaming_count])⟩

/-! ### C9 — the shipped SimpleVAD -/

/-- C9: for a positive minimum-duration threshold (the shipped value is
0.1), `SimpleVAD.detect_activity` returns the empty list whenever the
working buffer's duration `len / (rate * width)` is below the threshold —
in particular for the empty buffer — and otherwise returns exactly one
interval covering the whole buffer, from 0.0 to its duration, with
confidence 1.0. -/
theorem C9_simple_vad (min_duration : ℚ) (hmin : 0 < min_duration)
    (n rate width : Nat) :
    ((n : ℚ) / ((rate : ℚ) * (width : ℚ)) < min_duration →
      SimpleVAD.detect_activity min_duration n rate width = []) ∧
    (min_duration ≤ (n : ℚ) / ((rate : ℚ) * (width : ℚ)) →
      SimpleVAD.detect_activity min_duration n rate width =
        [⟨0, (n : ℚ) / ((rate : ℚ) * (width : ℚ)), 1⟩]) ∧
    (n = 0 → SimpleVAD.detect_activity min_duration n rate width = []) := by
  unfold SimpleVAD.detect_activity
  refine ⟨fun hlt => ?_, fun hge => ?_, fun h0 => ?_⟩
  · by_cases h0 : n = 0
    · simp [h0]
    · simp [h0, if_pos hlt]
  · have hne : n ≠ 0 := by
      intro h0
      rw [h0] at hge
      simp at hge
      exact absurd (lt_of_lt_of_le hmin hge) (by norm_num)
    simp [hne, not_lt.mpr hge]
  · simp [h0]

/-- Witness for C9: the shipped threshold 0.1 with a 2.0-second working
buffer (64000 bytes at 16000 Hz × 2 bytes), and the empty buffer. -/
theorem C9_simple_vad_witness :
    (0 : ℚ) < 1/10 ∧
    SimpleVAD.detect_activity (1/10) 64000 16000 2 =
      [⟨0, ((64000 : Nat) : ℚ) / (((16000 : Nat) : ℚ) * ((2 : Nat) : ℚ)), 1⟩] ∧
    SimpleVAD.detect_activity (1/10) 0 16000 2 = [] :=
  ⟨by norm_num,
   (C9_simple_vad (1/10) (by norm_num) 64000 16000 2).2.1 (by norm_num),
   (C9_simple_vad (1/10) (by norm_num) 0 16000 2).2.2 rfl⟩

/-! ### C1 — the in-flight guard does not prevent a second attempt -/

/-- A reachable session state with a recognition attempt in flight
(`processing_flag = true`, task 0 pending) and a refilled pending buffer:
1.5625 s of audio promoted at time 0, then another 50000 bytes appended. -/
def c1State : SessionState :=
  run initialState [Ev.append 50000, Ev.procAudio 0, Ev.append 50000]

/-- C1 counterexample: in `c1State` the in-flight guard is true, yet the
next `process_audio` call starts a second recognition attempt (two tasks
in flight) — it logs the warning but does not refrain.  This refutes "while
the in-flight guard is true, `process_audio` never starts a new recognition
attempt". -/
theorem C1_counterexample :
    c1State.strategy.processing_flag = true ∧
    (process_audio 1 c1State).tasks.length = 2 ∧
    (process_audio 1 c1State).warnings = 1 := by
  refine ⟨?_, ?_, ?_⟩ <;>
    norm_num [c1State, run, step, process_audio, touch_connect_time, touch_start_time,
      promote, append_audio_data, chunk_length_in_bytes, initialState, Client.init,
      SilenceAtEndOfChunk.init]

/-- C1 (amended): whenever `processing_flag` is true and the pending buffer
strictly exceeds the chunk threshold, `process_audio` logs exactly one
"Error in realtime processing" warning but nevertheless promotes the buffer
and starts a new recognition attempt, so Idle→Processing→Idle transitions
of one session can overlap; the violation is logged, not prevented. -/
theorem C1_amended (s : SessionState) (now : ℚ)
    (hflag : s.strategy.processing_flag = true)
    (hlen : chunk_length_in_bytes s < (s.buffer : ℚ)) :
    (process_audio now s).warnings = s.warnings + 1 ∧
    (process_audio now s).tasks.length = s.tasks.length + 1 ∧
    (process_audio now s).strategy.processing_flag = true ∧
    (process_audio now s).scratch_buffer = s.scratch_buffer + s.buffer := by
  obtain ⟨c, hcv, hc⟩ := touch_connect_eq now s
  obtain ⟨v, hvv, hv⟩ := touch_start_eq now (touch_connect_time now s)
  unfold process_audio
  rw [hv, hc]
  rw [if_pos (by simpa [chunk_length_in_bytes] using hlen)]
  simp [promote, hflag]

/-- Witness for C1 at the concrete in-flight state `c1State`. -/
theorem C1_amended_witness :
    (c1State.strategy.processing_flag = true ∧
     chunk_length_in_bytes c1State < (c1State.buffer : ℚ)) ∧
    ((process_audio 1 c1State).warnings = c1State.warnings + 1 ∧
     (process_audio 1 c1State).tasks.length = c1State.tasks.length + 1 ∧
     (process_audio 1 c1State).strategy.processing_flag = true ∧
     (process_audio 1 c1State).scratch_buffer =
       c1State.scratch_buffer + c1State.buffer) :=
  ⟨⟨by norm_num [c1State, run, step, process_audio, touch_connect_time, touch_start_time,
      promote, append_audio_data, chunk_length_in_bytes, initialState, Client.init,
      SilenceAtEndOfChunk.init],
    by norm_num [c1State, run, step, process_audio, touch_connect_time, touch_start_time,
      promote, append_audio_data, chunk_length_in_bytes, initialState, Client.init,
      SilenceAtEndOfChunk.init]⟩,
   C1_amended c1State 1
     (by norm_num [c1State, run, step, process_audio, touch_connect_time, touch_start_time,
        promote, append_audio_data, chunk_length_in_bytes, initialState, Client.init,
        SilenceAtEndOfChunk.init])
     (by norm_num [c1State, run, step, process_audio, touch_connect_time, touch_start_time,
        promote, append_audio_data, chunk_length_in_bytes, initialState, Client.init,
        SilenceAtEndOfChunk.init])⟩

/-! ### C2 — exceptions from the pipelines are not caught -/

/-- C2 counterexample: a chunk is promoted at time 0 and the
`detect_activity` await raises.  Afterwards the session still has
`processing_flag = true`, the working buffer still holds the 50000 bytes,
no task is left to reset anything, and nothing was logged as handled —
refuting "the exception is caught and logged, the working buffer is
cleared, and the session returns to Idle". -/
theorem C2_counterexample :
    (run initialState [Ev.append 50000, Ev.procAudio 0,
        Ev.runVad 0 VadOutcome.raised]).strategy.processing_flag = true ∧
    (run initialState [Ev.append 50000, Ev.procAudio 0,
        Ev.runVad 0 VadOutcome.raised]).scratch_buffer = 50000 ∧
    (run initialState [Ev.append 50000, Ev.procAudio 0,
        Ev.runVad 0 VadOutcome.raised]).tasks = [] := by
  refine ⟨?_, ?_, ?_⟩ <;>
    norm_num [run, step, process_audio, touch_connect_time, touch_start_time, promote,
      run_vad, findTask, removeTask, append_audio_data, chunk_length_in_bytes,
      initialState, Client.init, SilenceAtEndOfChunk.init]

/-- C2 (amended): an exception raised at the `detect_activity` or
`transcribe` await of `process_audio_async` is not caught by it: the
coroutine dies, and the session state is left exactly as it was except that
the task is gone — the working buffer is retained, no result is emitted,
and `processing_flag` keeps its value (true), so the session stays in
Processing until some later promotion's task completes.  A `None`
recognizer result (the shipped recognizer turns its own exceptions into
`None`), by contrast, is handled: no result, working buffer cleared, flag
reset. -/
theorem C2_amended (s : SessionState) (id : Nat) (t : Task)
    (hfind : findTask id s.tasks = some t) :
    (t.stage = TaskStage.beforeVad →
      run_vad id VadOutcome.raised s = { s with tasks := removeTask id s.tasks }) ∧
    (∀ stv now, t.stage = TaskStage.beforeAsr stv →
      run_asr id now AsrOutcome.raised s = { s with tasks := removeTask id s.tasks }) ∧
    (∀ stv now, t.stage = TaskStage.beforeAsr stv →
      (run_asr id now (AsrOutcome.ok none) s).transcript = s.transcript ∧
      (run_asr id now (AsrOutcome.ok none) s).scratch_buffer = 0 ∧
      (t.gen = s.gen →
        (run_asr id now (AsrOutcome.ok none) s).strategy.processing_flag = false)) := by
  refine ⟨fun hst => ?_, fun stv now hst => ?_, fun stv now hst => ?_⟩
  · cases hcn : s.connect_time <;> simp [run_vad, hfind, hst, hcn]
  · simp [run_asr, hfind, hst]
  · refine ⟨?_, ?_, fun hg => ?_⟩
    · rcases eq_or_ne s.gen t.gen with hg2 | hg2 <;>
        simp [run_asr, hfind, hst, setFlagIfCurrent, hg2]
    · rcases eq_or_ne s.gen t.gen with hg2 | hg2 <;>
        simp [run_asr, hfind, hst, setFlagIfCurrent, hg2]
    · simp [run_asr, hfind, hst, setFlagIfCurrent, hg]

/-- Witness for C2 at the concrete promoted state. -/
theorem C2_amended_witness :
    (findTask 0 (run initialState [Ev.append 50000, Ev.procAudio 0]).tasks =
      some { gen := 0, startTime := 0, defaultStartTime := 0,
             chunk_offset_seconds := 1/10, stage := TaskStage.beforeVad }) ∧
    (({ gen := 0, startTime := 0, defaultStartTime := 0,
        chunk_offset_seconds := 1/10,
        stage := TaskStage.beforeVad } : Task).stage = TaskStage.beforeVad →
      run_vad 0 VadOutcome.raised (run initialState [Ev.append 50000, Ev.procAudio 0]) =
        { run initialState [Ev.append 50000, Ev.procAudio 0] with
          tasks := removeTask 0
            (run initialState [Ev.append 50000, Ev.procAudio 0]).tasks }) :=
  ⟨by norm_num [run, step, process_audio, touch_connect_time, touch_start_time, promote,
      append_audio_data, chunk_length_in_bytes, findTask, initialState, Client.init,
      SilenceAtEndOfChunk.init],
   (C2_amended (run initialState [Ev.append 50000, Ev.procAudio 0]) 0 _
     (by norm_num [run, step, process_audio, touch_connect_time, touch_start_time, promote,
        append_audio_data, chunk_length_in_bytes, findTask, initialState, Client.init,
        SilenceAtEndOfChunk.init])).1⟩

/-! ### C3 — the empty-VAD branch also clears the pending buffer -/

/-- C3 counterexample: 52000 bytes are promoted, 7 more bytes arrive while
the task is pending, and then the detector returns an empty list.  Before
that resumption the pending buffer holds 7 bytes; afterwards it holds 0 —
line 114 (`self.client.buffer.clear()`) clears it, refuting "the
pendingBuffer (client.buffer) is left unaffected". -/
theorem C3_counterexample :
    (run initialState [Ev.append 52000, Ev.procAudio 0, Ev.append 7]).buffer = 7 ∧
    (run initialState [Ev.append 52000, Ev.procAudio 0, Ev.append 7,
        Ev.runVad 0 (VadOutcome.ok [])]).buffer = 0 ∧
    (run initialState [Ev.append 52000, Ev.procAudio 0, Ev.append 7,
        Ev.runVad 0 (VadOutcome.ok [])]).scratch_buffer = 0 ∧
    (run initialState [Ev.append 52000, Ev.procAudio 0, Ev.append 7,
        Ev.runVad 0 (VadOutcome.ok [])]).transcript = [] ∧
    (run initialState [Ev.append 52000, Ev.procAudio 0, Ev.append 7,
        Ev.runVad 0 (VadOutcome.ok [])]).strategy.processing_flag = false := by
  refine ⟨?_, ?_, ?_, ?_, ?_⟩ <;>
    norm_num [run, step, process_audio, touch_connect_time, touch_start_time, promote,
      run_vad, findTask, removeTask, setFlagIfCurrent, append_audio_data,
      chunk_length_in_bytes, initialState, Client.init, SilenceAtEndOfChunk.init]

/-- C3 (amended): when the detector returns an empty interval list for a
promoted chunk, the working buffer is discarded, no Result message is
emitted, no bytes are handed to the recognizer, the state returns to Idle
(`processing_flag` false when the owning strategy is still current) — and
the pending buffer (`client.buffer`) is cleared as well, discarding any
audio that arrived after the promotion. -/
theorem C3_amended (s : SessionState) (id : Nat) (t : Task) (ct : ℚ)
    (hfind : findTask id s.tasks = some t)
    (hstage : t.stage = TaskStage.beforeVad)
    (hconn : s.connect_time = some ct) :
    (run_vad id (VadOutcome.ok []) s).scratch_buffer = 0 ∧
    (run_vad id (VadOutcome.ok []) s).buffer = 0 ∧
    (run_vad id (VadOutcome.ok []) s).transcript = s.transcript ∧
    (run_vad id (VadOutcome.ok []) s).deliveredBytes = s.deliveredBytes ∧
    (run_vad id (VadOutcome.ok []) s).tasks = removeTask id s.tasks ∧
    (t.gen = s.gen →
      (run_vad id (VadOutcome.ok []) s).strategy.processing_flag = false) ∧
    (run_vad id (VadOutcome.ok []) s).discardedBytes =
      s.discardedBytes + s.scratch_buffer + s.buffer := by
  refine ⟨?_, ?_, ?_, ?_, ?_, fun hg => ?_, ?_⟩
  · rcases eq_or_ne s.gen t.gen with hg2 | hg2 <;>
      simp [run_vad, hfind, hstage, hconn, setFlagIfCurrent, hg2]
  · rcases eq_or_ne s.gen t.gen with hg2 | hg2 <;>
      simp [run_vad, hfind, hstage, hconn, setFlagIfCurrent, hg2]
  · rcases eq_or_ne s.gen t.gen with hg2 | hg2 <;>
      simp [run_vad, hfind, hstage, hconn, setFlagIfCurrent, hg2]
  · rcases eq_or_ne s.gen t.gen with hg2 | hg2 <;>
      simp [run_vad, hfind, hstage, hconn, setFlagIfCurrent, hg2]
  · rcases eq_or_ne s.gen t.gen with hg2 | hg2 <;>
      simp [run_vad, hfind, hstage, hconn, setFlagIfCurrent, hg2]
  · simp [run_vad, hfind, hstage, hconn, setFlagIfCurrent, hg]
  · rcases eq_or_ne s.gen t.gen with hg2 | hg2 <;>
      simp [run_vad, hfind, hstage, hconn, setFlagIfCurrent, hg2, Nat.add_assoc]

/-- Witness for C3 at the concrete state of the counterexample trace. -/
theorem C3_amended_witness :
    (findTask 0 (run initialState [Ev.append 52000, Ev.procAudio 0, Ev.append 7]).tasks =
      some { gen := 0, startTime := 0, defaultStartTime := 0,
             chunk_offset_seconds := 1/10, stage := TaskStage.beforeVad }) ∧
    ((run_vad 0 (VadOutcome.ok [])
        (run initialState [Ev.append 52000, Ev.procAudio 0, Ev.append 7])).scratch_buffer = 0 ∧
     (run_vad 0 (VadOutcome.ok [])
        (run initialState [Ev.append 52000, Ev.procAudio 0, Ev.append 7])).buffer = 0 ∧
     (run_vad 0 (VadOutcome.ok [])
        (run initialState [Ev.append 52000, Ev.procAudio 0, Ev.append 7])).transcript =
       (run initialState [Ev.append 52000, Ev.procAudio 0, Ev.append 7]).transcript ∧
     (run_vad 0 (VadOutcome.ok [])
        (run initialState [Ev.append 52000, Ev.procAudio 0, Ev.append 7])).deliveredBytes =
       (run initialState [Ev.append 52000, Ev.procAudio 0, Ev.append 7]).deliveredBytes ∧
     (run_vad 0 (VadOutcome.ok [])
        (run initialState [Ev.append 52000, Ev.procAudio 0, Ev.append 7])).tasks =
       removeTask 0 (run initialState [Ev.append 52000, Ev.procAudio 0, Ev.append 7]).tasks ∧
     (({ gen := 0, startTime := 0, defaultStartTime := 0,
         chunk_offset_seconds := 1/10,
         stage := TaskStage.beforeVad } : Task).gen =
         (run initialState [Ev.append 52000, Ev.procAudio 0, Ev.append 7]).gen →
       (run_vad 0 (VadOutcome.ok [])
          (run initialState [Ev.append 52000, Ev.procAudio 0, Ev.append 7])).strategy.processing_flag =
         false) ∧
     (run_vad 0 (VadOutcome.ok [])
        (run initialState [Ev.append 52000, Ev.procAudio 0, Ev.append 7])).discardedBytes =
       (run initialState [Ev.append 52000, Ev.procAudio 0, Ev.append 7]).discardedBytes +
         (run initialState [Ev.append 52000, Ev.procAudio 0, Ev.append 7]).scratch_buffer +
         (run initialState [Ev.append 52000, Ev.procAudio 0, Ev.append 7]).buffer) :=
  ⟨by norm_num [run, step, process_audio, touch_connect_time, touch_start_time, promote,
      append_audio_data, chunk_length_in_bytes, findTask, initialState, Client.init,
      SilenceAtEndOfChunk.init],
   C3_amended (run initialState [Ev.append 52000, Ev.procAudio 0, Ev.append 7]) 0 _ 0
     (by norm_num [run, step, process_audio, touch_connect_time, touch_start_time, promote,
        append_audio_data, chunk_length_in_bytes, findTask, initialState, Client.init,
        SilenceAtEndOfChunk.init])
     rfl
     (by norm_num [run, step, process_audio, touch_connect_time, touch_start_time, promote,
        append_audio_data, chunk_length_in_bytes, initialState, Client.init,
        SilenceAtEndOfChunk.init])⟩

/-! ### C4 — the trigger algorithm -/

/-- Scenario A's session state: 2.0 s of buffered audio (64000 bytes at
16000 Hz × 2 bytes) promoted at time 0 with the default parameters
`chunk_length_seconds = 1.5`, `chunk_offset_seconds = 0.1`. -/
def c4State : SessionState := run initialState [Ev.append 64000, Ev.procAudio 0]

/-- The task spawned by that promotion. -/
def c4Task : Task :=
  { gen := 0, startTime := 0, defaultStartTime := 0,
    chunk_offset_seconds := 1/10, stage := TaskStage.beforeVad }

/-- C4: the trigger algorithm is exactly as specified.  (a) `process_audio`
promotes and spawns iff `len(buffer)` strictly exceeds
`chunkLengthSeconds * sampleRate * sampleWidthBytes` (and otherwise leaves
both buffers alone); (b) for a nonempty detector result, the recognizer is
awaited iff the last interval's end is strictly below
`last_segment_should_end_before = len(scratch)/(rate*width) - chunkOffsetSeconds`
or that cutoff exceeds 2; (c) Scenario A: a 2.0 s buffer whose last
interval ends at 1.8 s gives cutoff 1.9 > 1.8 and triggers recognition. -/
theorem C4_trigger (s : SessionState) (now : ℚ) (id : Nat) (t : Task) (ct : ℚ)
    (i : VadInterval) (is : List VadInterval)
    (hfind : findTask id s.tasks = some t)
    (hstage : t.stage = TaskStage.beforeVad)
    (hconn : s.connect_time = some ct) :
    ((process_audio now s).tasks.length = s.tasks.length + 1 ↔
      s.strategy.chunk_length_seconds * (s.sampling_rate : ℚ) * (s.samples_width : ℚ)
        < (s.buffer : ℚ)) ∧
    (¬ chunk_length_in_bytes s < (s.buffer : ℚ) →
      (process_audio now s).scratch_buffer = s.scratch_buffer ∧
      (process_audio now s).buffer = s.buffer) ∧
    (findTask id (run_vad id (VadOutcome.ok (i :: is)) s).tasks =
        some { t with stage := TaskStage.beforeAsr (start_transcribe_time s t) } ↔
      (lastEndSec i is < last_segment_should_end_before s t ∨
        last_segment_should_end_before s t > 2)) ∧
    (last_segment_should_end_before c4State c4Task = 19/10 ∧
     (9 : ℚ)/5 < 19/10 ∧
     findTask 0 (run_vad 0 (VadOutcome.ok [⟨0, 9/5, 1⟩]) c4State).tasks =
       some { c4Task with stage := TaskStage.beforeAsr 0 }) := by
  obtain ⟨c, hcv, hc⟩ := touch_connect_eq now s
  obtain ⟨v, hvv, hv⟩ := touch_start_eq now (touch_connect_time now s)
  have hpa : process_audio now s =
      if chunk_length_in_bytes s < (s.buffer : ℚ) then
        promote { s with connect_time := c,
                         strategy := { s.strategy with start_time := some v } }
      else { s with connect_time := c,
                    strategy := { s.strategy with start_time := some v } } := by
    unfold process_audio
    rw [hv, hc]
    simp [chunk_length_in_bytes]
  refine ⟨?_, ?_, ?_, ?_⟩
  · rw [hpa]
    by_cases hlen : chunk_length_in_bytes s < (s.buffer : ℚ)
    · rw [if_pos hlen]
      simpa [promote, chunk_length_in_bytes] using hlen
    · rw [if_neg hlen]
      simpa [chunk_length_in_bytes] using hlen
  · intro hlen
    rw [hpa, if_neg hlen]
    exact ⟨rfl, rfl⟩
  · by_cases hcond : (lastEndSec i is < last_segment_should_end_before s t ∨
        last_segment_should_end_before s t > 2)
    · simp [run_vad, hfind, hstage, hconn, if_pos hcond, findTask_updateTask_self, hcond]
    · rcases eq_or_ne s.gen t.gen with hg | hg <;>
        simp [run_vad, hfind, hstage, hconn, if_neg hcond, findTask_removeTask_self, hcond,
          setFlagIfCurrent, hg]
  · refine ⟨?_, by norm_num, ?_⟩ <;>
      norm_num [c4State, c4Task, run, step, process_audio, touch_connect_time,
        touch_start_time, promote, run_vad, findTask, updateTask, append_audio_data,
        chunk_length_in_bytes, last_segment_should_end_before, lastEndSec,
        start_transcribe_time, pyInt, initialState, Client.init,
        SilenceAtEndOfChunk.init]

/-- Witness for C4: Scenario A extracted from `C4_trigger` applied at the
concrete promoted state. -/
theorem C4_trigger_witness :
    last_segment_should_end_before c4State c4Task = 19/10 ∧
    (9 : ℚ)/5 < 19/10 ∧
    findTask 0 (run_vad 0 (VadOutcome.ok [⟨0, 9/5, 1⟩]) c4State).tasks =
      some { c4Task with stage := TaskStage.beforeAsr 0 } :=
  (C4_trigger c4State 1 0 c4Task 0 ⟨0, 9/5, 1⟩ []
    (by norm_num [c4State, c4Task, run, step, process_audio, touch_connect_time,
      touch_start_time, promote, append_audio_data, chunk_length_in_bytes, findTask,
      initialState, Client.init, SilenceAtEndOfChunk.init])
    rfl
    (by norm_num [c4State, run, step, process_audio, touch_connect_time,
      touch_start_time, promote, append_audio_data, chunk_length_in_bytes,
      initialState, Client.init, SilenceAtEndOfChunk.init])).2.2.2

/-! ### C6 — result timing and the never-advanced `last_start_time` -/

/-- Case form of `process_audio`: it either promotes-and-spawns or leaves
the session untouched except for `connect_time` and the strategy's
`start_time`; an already-set `connect_time` is kept. -/
theorem process_audio_cases (now : ℚ) (s : SessionState) :
    ∃ (c : Option ℚ) (v : ℚ),
      (s.connect_time = c ∨ (s.connect_time = none ∧ 0 < s.buffer ∧ c = some now)) ∧
      (s.strategy.start_time = some v ∨ (s.strategy.start_time = none ∧ v = now)) ∧
      ((chunk_length_in_bytes s < (s.buffer : ℚ) ∧
        process_audio now s =
          promote { s with connect_time := c,
                           strategy := { s.strategy with start_time := some v } }) ∨
       (¬ chunk_length_in_bytes s < (s.buffer : ℚ) ∧
        process_audio now s =
          { s with connect_time := c,
                   strategy := { s.strategy with start_time := some v } })) := by
  obtain ⟨c, hcv, hc⟩ := touch_connect_eq now s
  obtain ⟨v, hvv, hv⟩ := touch_start_eq now (touch_connect_time now s)
  have hvv2 : s.strategy.start_time = some v ∨
      (s.strategy.start_time = none ∧ v = now) := by
    rw [hc] at hvv
    simpa using hvv
  have hpa : process_audio now s =
      if chunk_length_in_bytes s < (s.buffer : ℚ) then
        promote { s with connect_time := c,
                         strategy := { s.strategy with start_time := some v } }
      else { s with connect_time := c,
                    strategy := { s.strategy with start_time := some v } } := by
    unfold process_audio
    rw [hv, hc]
    simp [chunk_length_in_bytes]
  refine ⟨c, v, hcv, hvv2, ?_⟩
  by_cases hlen : chunk_length_in_bytes s < (s.buffer : ℚ)
  · exact Or.inl ⟨hlen, by rw [hpa, if_pos hlen]⟩
  · exact Or.inr ⟨hlen, by rw [hpa, if_neg hlen]⟩

theorem step_frame (e : Ev) (s : SessionState) :
    (step e s).last_start_time = s.last_start_time ∧
    (step e s).sampling_rate = s.sampling_rate ∧
    (step e s).samples_width = s.samples_width ∧
    (∀ c, s.connect_time = some c → (step e s).connect_time = some c) := by
  cases e with
  | append n => exact ⟨rfl, rfl, rfl, fun c hc => hc⟩
  | procAudio now =>
    obtain ⟨c, v, hcv, hvv, hcases⟩ := process_audio_cases now s
    have hcp : ∀ c0, s.connect_time = some c0 → c = some c0 := by
      intro c0 h0
      rcases hcv with h | ⟨hn, _, _⟩
      · rw [← h, h0]
      · rw [h0] at hn
        cases hn
    simp only [step]
    rcases hcases with ⟨hlen, h⟩ | ⟨hlen, h⟩ <;> rw [h] <;>
      exact ⟨by simp [promote], by simp [promote], by simp [promote],
        fun c0 h0 => by simp [promote, hcp c0 h0]⟩
  | runVad id r =>
    cases hf : findTask id s.tasks with
    | none => simp [step, run_vad, hf]
    | some t =>
      cases hst : t.stage with
      | beforeAsr stv => simp [step, run_vad, hf, hst]
      | beforeVad =>
        cases hcn : s.connect_time with
        | none => simp [step, run_vad, hf, hst, hcn]
        | some ct =>
          cases r with
          | raised => simp [step, run_vad, hf, hst, hcn]
          | ok l =>
            cases l with
            | nil =>
              rcases eq_or_ne s.gen t.gen with hg | hg <;>
                simp [step, run_vad, hf, hst, hcn, setFlagIfCurrent, hg]
            | cons i is =>
              by_cases hcond : (lastEndSec i is < last_segment_should_end_before s t ∨
                  last_segment_should_end_before s t > 2)
              · simp [step, run_vad, hf, hst, hcn, if_pos hcond]
              · rcases eq_or_ne s.gen t.gen with hg | hg <;>
                  simp [step, run_vad, hf, hst, hcn, if_neg hcond, setFlagIfCurrent, hg]
  | runAsr id now r =>
    cases hf : findTask id s.tasks with
    | none => simp [step, run_asr, hf]
    | some t =>
      cases hst : t.stage with
      | beforeVad => simp [step, run_asr, hf, hst]
      | beforeAsr stv =>
        cases r with
        | raised => simp [step, run_asr, hf, hst]
        | ok tr =>
          cases tr with
          | none =>
            rcases eq_or_ne s.gen t.gen with hg | hg <;>
              simp [step, run_asr, hf, hst, setFlagIfCurrent, setStartTimeIfCurrent, hg]
          | some tRes =>
            rcases eq_or_ne s.gen t.gen with hg | hg <;>
              simp [step, run_asr, hf, hst, setFlagIfCurrent, setStartTimeIfCurrent, hg]
  | updateConfig cl co => exact ⟨rfl, rfl, rfl, fun c hc => hc⟩

theorem run_preserves_last_start_time (evs : List Ev) (s : SessionState) :
    (run s evs).last_start_time = s.last_start_time := by
  induction evs generalizing s with
  | nil => rfl
  | cons e es ih => rw [run, ih, (step_frame e s).1]

/-- The Scenario A trace continued to a successful recognition: promotion
at time 0, detector interval ending at 1.8 s, recognizer returns text
"hi" of duration 1 s at time 50. -/
def c6Events : List Ev :=
  [Ev.append 64000, Ev.procAudio 0,
   Ev.runVad 0 (VadOutcome.ok [⟨0, 9/5, 1⟩]),
   Ev.runAsr 0 50 (AsrOutcome.ok (some ⟨"hi", 1⟩))]

/-- C6 counterexample: the trace emits a Result message, yet
`client.last_start_time` still equals its initial value afterwards —
refuting "lastEmittedEndOffset (client.last_start_time) is advanced". -/
theorem C6_counterexample :
    (run initialState c6Events).transcript = [Payload.mk 200 0 1 "hi"] ∧
    (run initialState c6Events).last_start_time = initialState.last_start_time := by
  constructor
  · norm_num [c6Events, run, step, process_audio, touch_connect_time, touch_start_time,
      promote, run_vad, run_asr, findTask, removeTask, updateTask, removeFlight,
      setFlagIfCurrent, setStartTimeIfCurrent, lastEndSec, last_segment_should_end_before,
      start_transcribe_time, pyInt, round3, roundHalfEven, append_audio_data,
      chunk_length_in_bytes, initialState, Client.init, SilenceAtEndOfChunk.init]
  · exact run_preserves_last_start_time c6Events initialState

/-- The state of the Scenario A trace just before the recognizer resumes. -/
def c6PreAsrState : SessionState :=
  run initialState [Ev.append 64000, Ev.procAudio 0,
    Ev.runVad 0 (VadOutcome.ok [⟨0, 9/5, 1⟩])]

/-- The task of `c6PreAsrState`, suspended at the `transcribe` await. -/
def c6AsrTask : Task :=
  { gen := 0, startTime := 0, defaultStartTime := 0,
    chunk_offset_seconds := 1/10, stage := TaskStage.beforeAsr 0 }

/-- C6 (amended): a triggered recognition that returns a result emits a
Result message with `startTime = round3 start_transcribe_time` and
`endTime = round3 (start_transcribe_time + duration)`, where
`start_transcribe_time = int(taskStartTime − connectTime) + defaultStartTime`
(the wall-clock elapsed time truncated to whole seconds, plus the
`last_start_time` captured at the spawn); it clears the working buffer and
(when the owning strategy is current) resets the flag and stamps the
strategy's `start_time` — but `client.last_start_time` is never advanced:
it keeps the value 0 the server passes at connection time forever. -/
theorem C6_amended (s : SessionState) (id : Nat) (t : Task) (stv now : ℚ)
    (tRes : Transcription)
    (hfind : findTask id s.tasks = some t)
    (hstage : t.stage = TaskStage.beforeAsr stv) :
    (run_asr id now (AsrOutcome.ok (some tRes)) s).transcript =
      s.transcript ++
        [Payload.mk 200 (round3 stv) (round3 (stv + tRes.duration)) tRes.text] ∧
    (run_asr id now (AsrOutcome.ok (some tRes)) s).scratch_buffer = 0 ∧
    (run_asr id now (AsrOutcome.ok (some tRes)) s).last_start_time =
      s.last_start_time ∧
    (t.gen = s.gen →
      (run_asr id now (AsrOutcome.ok (some tRes)) s).strategy.processing_flag = false ∧
      (run_asr id now (AsrOutcome.ok (some tRes)) s).strategy.start_time = some now) ∧
    (∀ (s0 : SessionState) (id0 : Nat) (t0 : Task) (ct : ℚ) (i : VadInterval)
        (is : List VadInterval),
      findTask id0 s0.tasks = some t0 → t0.stage = TaskStage.beforeVad →
      s0.connect_time = some ct →
      (lastEndSec i is < last_segment_should_end_before s0 t0 ∨
        last_segment_should_end_before s0 t0 > 2) →
      findTask id0 (run_vad id0 (VadOutcome.ok (i :: is)) s0).tasks =
        some { t0 with stage := TaskStage.beforeAsr (start_transcribe_time s0 t0) }) ∧
    (∀ evs, (run initialState evs).last_start_time = 0) := by
  refine ⟨?_, ?_, ?_, fun hg => ?_, ?_, fun evs => run_preserves_last_start_time evs _⟩
  · rcases eq_or_ne s.gen t.gen with hg2 | hg2 <;>
      simp [run_asr, hfind, hstage, setFlagIfCurrent, setStartTimeIfCurrent, hg2]
  · rcases eq_or_ne s.gen t.gen with hg2 | hg2 <;>
      simp [run_asr, hfind, hstage, setFlagIfCurrent, setStartTimeIfCurrent, hg2]
  · rcases eq_or_ne s.gen t.gen with hg2 | hg2 <;>
      simp [run_asr, hfind, hstage, setFlagIfCurrent, setStartTimeIfCurrent, hg2]
  · constructor <;>
      simp [run_asr, hfind, hstage, setFlagIfCurrent, setStartTimeIfCurrent, hg]
  · intro s0 id0 t0 ct i is hf0 hs0 hcn0 hcond
    simp [run_vad, hf0, hs0, hcn0, if_pos hcond, findTask_updateTask_self]

/-- Witness for C6 at the Scenario A trace. -/
theorem C6_amended_witness :
    findTask 0 c6PreAsrState.tasks = some c6AsrTask ∧
    (run_asr 0 50 (AsrOutcome.ok (some ⟨"hi", 1⟩)) c6PreAsrState).transcript =
      c6PreAsrState.transcript ++
        [Payload.mk 200 (round3 0) (round3 (0 + (⟨"hi", 1⟩ : Transcription).duration))
          (⟨"hi", 1⟩ : Transcription).text] :=
  ⟨by norm_num [c6PreAsrState, c6AsrTask, run, step, process_audio, touch_connect_time,
      touch_start_time, promote, run_vad, findTask, updateTask, lastEndSec,
      last_segment_should_end_before, start_transcribe_time, pyInt, append_audio_data,
      chunk_length_in_bytes, initialState, Client.init, SilenceAtEndOfChunk.init],
   (C6_amended c6PreAsrState 0 c6AsrTask 0 50 ⟨"hi", 1⟩
     (by norm_num [c6PreAsrState, c6AsrTask, run, step, process_audio, touch_connect_time,
        touch_start_time, promote, run_vad, findTask, updateTask, lastEndSec,
        last_segment_should_end_before, start_transcribe_time, pyInt, append_audio_data,
        chunk_length_in_bytes, initialState, Client.init, SilenceAtEndOfChunk.init])
     rfl).1⟩

/-! ### C10 — `update_config` resets the in-flight guard -/

/-- C10: every `update_config` call installs a freshly constructed strategy
whose `processing_flag` is false, regardless of the previous flag and of
any still-pending tasks (which survive untouched, as do both buffers);
consequently, as soon as the pending buffer exceeds the new threshold, the
next `process_audio` starts another recognition attempt — without even the
overlap warning — while the old task is still in flight. -/
theorem C10_update_config (s : SessionState) (cl co now : ℚ) :
    (update_config cl co s).strategy.processing_flag = false ∧
    (update_config cl co s).tasks = s.tasks ∧
    (update_config cl co s).buffer = s.buffer ∧
    (update_config cl co s).scratch_buffer = s.scratch_buffer ∧
    (chunk_length_in_bytes (update_config cl co s) <
        ((update_config cl co s).buffer : ℚ) →
      (process_audio now (update_config cl co s)).tasks.length = s.tasks.length + 1 ∧
      (process_audio now (update_config cl co s)).warnings = s.warnings) := by
  refine ⟨rfl, rfl, rfl, rfl, fun hlen => ?_⟩
  obtain ⟨c, hcv, hc⟩ := touch_connect_eq now (update_config cl co s)
  obtain ⟨v, hvv, hv⟩ := touch_start_eq now (touch_connect_time now (update_config cl co s))
  unfold process_audio
  rw [hv, hc]
  rw [if_pos (by simpa [chunk_length_in_bytes] using hlen)]
  simp [promote, update_config, SilenceAtEndOfChunk.init]

/-- Witness for C10: a config update at the in-flight state `c1State`
(flag true, task 0 pending, 50000 pending bytes) re-opens the trigger and
a second recognition attempt starts with no warning. -/
theorem C10_update_config_witness :
    chunk_length_in_bytes (update_config (3/2) (1/10) c1State) <
      ((update_config (3/2) (1/10) c1State).buffer : ℚ) ∧
    ((process_audio 2 (update_config (3/2) (1/10) c1State)).tasks.length =
        c1State.tasks.length + 1 ∧
     (process_audio 2 (update_config (3/2) (1/10) c1State)).warnings =
        c1State.warnings) :=
  ⟨by norm_num [c1State, update_config, SilenceAtEndOfChunk.init, run, step,
      process_audio, touch_connect_time, touch_start_time, promote, append_audio_data,
      chunk_length_in_bytes, initialState, Client.init],
   (C10_update_config c1State (3/2) (1/10) 2).2.2.2.2
     (by norm_num [c1State, update_config, SilenceAtEndOfChunk.init, run, step,
        process_audio, touch_connect_time, touch_start_time, promote, append_audio_data,
        chunk_length_in_bytes, initialState, Client.init])⟩

/-! ### C7 — ordering of result start times -/

theorem pyInt_mono {a b : ℚ} (h : a ≤ b) : pyInt a ≤ pyInt b := by
  unfold pyInt
  by_cases ha : 0 ≤ a <;> by_cases hb : 0 ≤ b
  · simpa [ha, hb] using Int.floor_le_floor h
  · exact absurd (le_trans ha h) hb
  · have h1 : (0 : ℤ) ≤ ⌊-a⌋ := Int.floor_nonneg.mpr (by linarith)
    have h2 : (0 : ℤ) ≤ ⌊b⌋ := Int.floor_nonneg.mpr hb
    simp only [ha, hb, if_true, if_false]
    omega
  · have h3 := Int.floor_le_floor (neg_le_neg h)
    simp only [ha, hb, if_false]
    omega

theorem roundHalfEven_ge_floor (q : ℚ) : ⌊q⌋ ≤ roundHalfEven q := by
  unfold roundHalfEven
  split_ifs <;> omega

theorem roundHalfEven_le_floor_add_one (q : ℚ) : roundHalfEven q ≤ ⌊q⌋ + 1 := by
  unfold roundHalfEven
  split_ifs <;> omega

theorem roundHalfEven_mono {a b : ℚ} (h : a ≤ b) :
    roundHalfEven a ≤ roundHalfEven b := by
  have hf := Int.floor_le_floor h
  rcases lt_or_eq_of_le hf with hlt | heq
  · calc roundHalfEven a ≤ ⌊a⌋ + 1 := roundHalfEven_le_floor_add_one a
    _ ≤ ⌊b⌋ := by omega
    _ ≤ roundHalfEven b := roundHalfEven_ge_floor b
  · unfold roundHalfEven
    rw [← heq]
    have hr : a - ⌊a⌋ ≤ b - ⌊a⌋ := by linarith
    split_ifs <;> first | omega | linarith

theorem round3_mono {a b : ℚ} (h : a ≤ b) : round3 a ≤ round3 b := by
  unfold round3
  have h1 : roundHalfEven (a * 1000) ≤ roundHalfEven (b * 1000) :=
    roundHalfEven_mono (by linarith)
  have h2 : ((roundHalfEven (a * 1000) : ℚ)) ≤ ((roundHalfEven (b * 1000) : ℚ)) := by
    exact_mod_cast h1
  linarith

theorem findTask_mem {id : Nat} {ts : List (Nat × Task)} {t : Task}
    (h : findTask id ts = some t) : (id, t) ∈ ts := by
  induction ts with
  | nil => cases h
  | cons p ts ih =>
    obtain ⟨k, t0⟩ := p
    by_cases hk : k = id
    · subst hk
      simp only [findTask, if_pos rfl] at h
      injection h with h
      subst h
      exact List.mem_cons_self _ _
    · simp only [findTask, if_neg hk] at h
      exact List.mem_cons_of_mem _ (ih h)

theorem mem_removeTask {id : Nat} {ts : List (Nat × Task)} {p : Nat × Task}
    (h : p ∈ removeTask id ts) : p ∈ ts := by
  induction ts with
  | nil => cases h
  | cons q ts ih =>
    obtain ⟨k, t0⟩ := q
    by_cases hk : k = id
    · simp only [removeTask, if_pos hk] at h
      exact List.mem_cons_of_mem _ (ih h)
    · simp only [removeTask, if_neg hk] at h
      rcases List.mem_cons.mp h with h | h
      · exact h ▸ List.mem_cons_self _ _
      · exact List.mem_cons_of_mem _ (ih h)

theorem mem_updateTask {id : Nat} {t1 : Task} {ts : List (Nat × Task)}
    {p : Nat × Task} (h : p ∈ updateTask id t1 ts) :
    p = (id, t1) ∨ p ∈ ts := by
  induction ts with
  | nil => cases h
  | cons q ts ih =>
    obtain ⟨k, t0⟩ := q
    by_cases hk : k = id
    · simp only [updateTask, if_pos hk] at h
      rcases List.mem_cons.mp h with h | h
      · exact Or.inl h
      · rcases ih h with h | h
        · exact Or.inl h
        · exact Or.inr (List.mem_cons_of_mem _ h)
    · simp only [updateTask, if_neg hk] at h
      rcases List.mem_cons.mp h with h | h
      · exact Or.inr (h ▸ List.mem_cons_self _ _)
      · rcases ih h with h | h
        · exact Or.inl h
        · exact Or.inr (List.mem_cons_of_mem _ h)

theorem pairwise_key_mono {l : List (Nat × ℚ)}
    (h : l.Pairwise fun p q => p.1 < q.1 ∧ p.2 ≤ q.2) :
    ∀ p ∈ l, ∀ q ∈ l, p.1 < q.1 → p.2 ≤ q.2 := by
  induction l with
  | nil => intro p hp; cases hp
  | cons x xs ih =>
    rw [List.pairwise_cons] at h
    obtain ⟨hx, hxs⟩ := h
    intro p hp q hq hlt
    rcases List.mem_cons.mp hp with rfl | hp <;>
      rcases List.mem_cons.mp hq with h2 | h2
    · rw [h2] at hlt
      exact absurd hlt (lt_irrefl _)
    · exact (hx q h2).2
    · rw [h2] at hlt
      exact absurd ((hx p hp).1.trans hlt) (lt_irrefl _)
    · exact ih hxs p hp q h2 hlt

theorem pairwise_key_eq {l : List (Nat × ℚ)}
    (h : l.Pairwise fun p q => p.1 < q.1 ∧ p.2 ≤ q.2) :
    ∀ p ∈ l, ∀ q ∈ l, p.1 = q.1 → p.2 = q.2 := by
  induction l with
  | nil => intro p hp; cases hp
  | cons x xs ih =>
    rw [List.pairwise_cons] at h
    obtain ⟨hx, hxs⟩ := h
    intro p hp q hq heq
    rcases List.mem_cons.mp hp with rfl | hp <;>
      rcases List.mem_cons.mp hq with h2 | h2
    · rw [h2]
    · have h3 := (hx q h2).1
      rw [heq] at h3
      exact absurd h3 (lt_irrefl _)
    · have h3 := (hx p hp).1
      rw [h2] at heq
      rw [heq] at h3
      exact absurd h3 (lt_irrefl _)
    · exact ih hxs p hp q h2 heq

/-- Timing invariant of a session run from the server's initial state,
relative to a lower bound `lb` on all future wall-clock readings:
`client.last_start_time` is still 0 (nothing ever writes it); spawn-log ids
are below the spawn counter; tasks were spawned with non-decreasing
captured `start_time` values, all at or below `lb`; a pending strategy
`start_time` dominates every captured value; every in-flight task's
captured values appear in the spawn log, and a task suspended at the
`transcribe` await carries
`start_transcribe_time = int(startTime − connectTime) + defaultStartTime`
computed against the (by then fixed) `connect_time`; every emitted entry
carries that quantity for its spawn; and the transcript's `startTime`
column is exactly the emit log's, rounded. -/
structure TInv (s : SessionState) (lb : ℚ) : Prop where
  lastZero : s.last_start_time = 0
  idBound : ∀ p ∈ s.spawnLog, p.1 < s.nextTaskId
  slMono : s.spawnLog.Pairwise fun p q => p.1 < q.1 ∧ p.2 ≤ q.2
  slBound : ∀ p ∈ s.spawnLog, p.2 ≤ lb
  stGE : ∀ v, s.strategy.start_time = some v →
    (∀ p ∈ s.spawnLog, p.2 ≤ v) ∧ v ≤ lb
  taskLink : ∀ p ∈ s.tasks, (p.1, p.2.startTime) ∈ s.spawnLog ∧
    p.2.defaultStartTime = 0 ∧
    (∀ stv, p.2.stage = TaskStage.beforeAsr stv →
      ∃ ct, s.connect_time = some ct ∧
        stv = (pyInt (p.2.startTime - ct) : ℚ) + p.2.defaultStartTime)
  emitLink : ∀ e ∈ s.emitLog, ∃ v ct, s.connect_time = some ct ∧
    (e.1, v) ∈ s.spawnLog ∧ e.2 = (pyInt (v - ct) : ℚ)
  transcriptLink : s.transcript.map Payload.startTime =
    s.emitLog.map fun e => round3 e.2

theorem tinv_initial (lb : ℚ) : TInv initialState lb := by
  refine ⟨rfl, ?_, ?_, ?_, ?_, ?_, ?_, rfl⟩
  · intro p hp; cases hp
  · exact List.Pairwise.nil
  · intro p hp; cases hp
  · intro v hv; cases hv
  · intro p hp; cases hp
  · intro e he; cases he

theorem tinv_append {s : SessionState} {lb : ℚ} (h : TInv s lb) (n : Nat) :
    TInv (append_audio_data n s) lb :=
  ⟨h.lastZero, h.idBound, h.slMono, h.slBound, h.stGE, h.taskLink, h.emitLink,
   h.transcriptLink⟩

theorem tinv_update {s : SessionState} {lb : ℚ} (h : TInv s lb) (cl co : ℚ) :
    TInv (update_config cl co s) lb := by
  refine ⟨h.lastZero, h.idBound, h.slMono, h.slBound, ?_, h.taskLink, h.emitLink,
    h.transcriptLink⟩
  intro v hv
  cases hv

theorem tinv_tasks_sub {s : SessionState} {lb : ℚ} (h : TInv s lb)
    (ts' : List (Nat × Task)) (hsub : ∀ p ∈ ts', p ∈ s.tasks) :
    TInv { s with tasks := ts' } lb :=
  ⟨h.lastZero, h.idBound, h.slMono, h.slBound, h.stGE,
   fun p hp => h.taskLink p (hsub p hp), h.emitLink, h.transcriptLink⟩

theorem tinv_runVad {s : SessionState} {lb : ℚ} (h : TInv s lb)
    (id : Nat) (r : VadOutcome) : TInv (run_vad id r s) lb := by
  cases hf : findTask id s.tasks with
  | none =>
    have he : run_vad id r s = s := by simp [run_vad, hf]
    rw [he]; exact h
  | some t =>
    cases hst : t.stage with
    | beforeAsr stv =>
      have he : run_vad id r s = s := by simp [run_vad, hf, hst]
      rw [he]; exact h
    | beforeVad =>
      cases hcn : s.connect_time with
      | none =>
        have he : run_vad id r s = { s with tasks := removeTask id s.tasks } := by
          simp [run_vad, hf, hst, hcn]
        rw [he]
        exact tinv_tasks_sub h _ fun p hp => mem_removeTask hp
      | some ct =>
        cases r with
        | raised =>
          have he : run_vad id VadOutcome.raised s =
              { s with tasks := removeTask id s.tasks } := by
            simp [run_vad, hf, hst, hcn]
          rw [he]
          exact tinv_tasks_sub h _ fun p hp => mem_removeTask hp
        | ok l =>
          cases l with
          | nil =>
            rcases eq_or_ne s.gen t.gen with hg | hg
            · have he : run_vad id (VadOutcome.ok []) s =
                  { s with
                    discardedBytes := s.discardedBytes + s.scratch_buffer + s.buffer
                    scratch_buffer := 0
                    buffer := 0
                    tasks := removeTask id s.tasks
                    strategy := { s.strategy with processing_flag := false } } := by
                simp [run_vad, hf, hst, hcn, setFlagIfCurrent, hg]
              rw [he]
              exact ⟨h.lastZero, h.idBound, h.slMono, h.slBound, h.stGE,
                fun p hp => h.taskLink p (mem_removeTask hp), h.emitLink,
                h.transcriptLink⟩
            · have he : run_vad id (VadOutcome.ok []) s =
                  { s with
                    discardedBytes := s.discardedBytes + s.scratch_buffer + s.buffer
                    scratch_buffer := 0
                    buffer := 0
                    tasks := removeTask id s.tasks } := by
                simp [run_vad, hf, hst, hcn, setFlagIfCurrent, hg]
              rw [he]
              exact ⟨h.lastZero, h.idBound, h.slMono, h.slBound, h.stGE,
                fun p hp => h.taskLink p (mem_removeTask hp), h.emitLink,
                h.transcriptLink⟩
          | cons i is =>
            by_cases hcond : (lastEndSec i is < last_segment_should_end_before s t ∨
                last_segment_should_end_before s t > 2)
            · have he : run_vad id (VadOutcome.ok (i :: is)) s =
                  { s with tasks := updateTask id { t with stage := TaskStage.beforeAsr (start_transcribe_time s t) } s.tasks,
                           deliveredBytes := s.deliveredBytes + s.scratch_buffer,
                           inFlight := s.inFlight ++ [(id, s.scratch_buffer)] } := by
                simp [run_vad, hf, hst, hcn, if_pos hcond]
              rw [he]
              refine ⟨h.lastZero, h.idBound, h.slMono, h.slBound, h.stGE, ?_,
                h.emitLink, h.transcriptLink⟩
              intro p hp
              rcases mem_updateTask hp with rfl | hp
              · obtain ⟨hmem, hdef, _⟩ := h.taskLink (id, t) (findTask_mem hf)
                refine ⟨hmem, hdef, ?_⟩
                intro stv hstv
                injection hstv with hstv
                refine ⟨ct, hcn, ?_⟩
                rw [← hstv]
                simp [start_transcribe_time, hcn]
              · exact h.taskLink p hp
            · have he : run_vad id (VadOutcome.ok (i :: is)) s =
                  setFlagIfCurrent t.gen false
                    { s with tasks := removeTask id s.tasks } := by
                simp [run_vad, hf, hst, hcn, if_neg hcond]
              rw [he]
              unfold setFlagIfCurrent
              split
              · exact ⟨h.lastZero, h.idBound, h.slMono, h.slBound, h.stGE,
                  fun p hp => h.taskLink p (mem_removeTask hp), h.emitLink,
                  h.transcriptLink⟩
              · exact tinv_tasks_sub h _ fun p hp => mem_removeTask hp

theorem tinv_mono {s : SessionState} {lb lb' : ℚ} (h : TInv s lb)
    (hle : lb ≤ lb') : TInv s lb' :=
  ⟨h.lastZero, h.idBound, h.slMono, fun p hp => le_trans (h.slBound p hp) hle,
   fun v hv => ⟨(h.stGE v hv).1, le_trans (h.stGE v hv).2 hle⟩,
   h.taskLink, h.emitLink, h.transcriptLink⟩

theorem tinv_runAsr {s : SessionState} {lb : ℚ} (h : TInv s lb)
    (id : Nat) (now : ℚ) (r : AsrOutcome) (hlb : lb ≤ now) :
    TInv (run_asr id now r s) now := by
  have h' := tinv_mono h hlb
  cases hf : findTask id s.tasks with
  | none =>
    have he : run_asr id now r s = s := by simp [run_asr, hf]
    rw [he]; exact h'
  | some t =>
    cases hst : t.stage with
    | beforeVad =>
      have he : run_asr id now r s = s := by simp [run_asr, hf, hst]
      rw [he]; exact h'
    | beforeAsr stv =>
      cases r with
      | raised =>
        have he : run_asr id now AsrOutcome.raised s =
            { s with tasks := removeTask id s.tasks } := by
          simp [run_asr, hf, hst]
        rw [he]
        exact tinv_tasks_sub h' _ fun p hp => mem_removeTask hp
      | ok tr =>
        cases tr with
        | none =>
          rcases eq_or_ne s.gen t.gen with hg | hg
          · have he : run_asr id now (AsrOutcome.ok none) s =
                { s with
                  scratch_buffer := 0
                  file_counter := s.file_counter + 1
                  tasks := removeTask id s.tasks
                  inFlight := removeFlight id s.inFlight
                  strategy := { s.strategy with processing_flag := false } } := by
              simp [run_asr, hf, hst, setFlagIfCurrent, hg]
            rw [he]
            exact ⟨h'.lastZero, h'.idBound, h'.slMono, h'.slBound, h'.stGE,
              fun p hp => h'.taskLink p (mem_removeTask hp), h'.emitLink,
              h'.transcriptLink⟩
          · have he : run_asr id now (AsrOutcome.ok none) s =
                { s with
                  scratch_buffer := 0
                  file_counter := s.file_counter + 1
                  tasks := removeTask id s.tasks
                  inFlight := removeFlight id s.inFlight } := by
              simp [run_asr, hf, hst, setFlagIfCurrent, hg]
            rw [he]
            exact ⟨h'.lastZero, h'.idBound, h'.slMono, h'.slBound, h'.stGE,
              fun p hp => h'.taskLink p (mem_removeTask hp), h'.emitLink,
              h'.transcriptLink⟩
        | some tRes =>
          obtain ⟨hmem, hdef, hstv⟩ := h.taskLink (id, t) (findTask_mem hf)
          obtain ⟨ct, hcn, heq⟩ := hstv stv hst
          have hnewEmit : ∃ v ct0, s.connect_time = some ct0 ∧
              (id, v) ∈ s.spawnLog ∧ stv = (pyInt (v - ct0) : ℚ) := by
            refine ⟨t.startTime, ct, hcn, hmem, ?_⟩
            rw [heq, hdef, add_zero]
          rcases eq_or_ne s.gen t.gen with hg | hg
          · have he : run_asr id now (AsrOutcome.ok (some tRes)) s =
                { s with
                  transcript := s.transcript ++
                    [Payload.mk 200 (round3 stv) (round3 (stv + tRes.duration)) tRes.text]
                  emitLog := s.emitLog ++ [(id, stv)]
                  scratch_buffer := 0
                  file_counter := s.file_counter + 1
                  tasks := removeTask id s.tasks
                  inFlight := removeFlight id s.inFlight
                  strategy := { s.strategy with start_time := some now, processing_flag := false } } := by
              simp [run_asr, hf, hst, setFlagIfCurrent, setStartTimeIfCurrent, hg]
            rw [he]
            refine ⟨h'.lastZero, h'.idBound, h'.slMono, h'.slBound, ?_, ?_, ?_, ?_⟩
            · intro v hv
              injection hv with hv
              subst hv
              exact ⟨fun p hp => le_trans (h.slBound p hp) hlb, le_refl now⟩
            · exact fun p hp => h'.taskLink p (mem_removeTask hp)
            · intro e he2
              rcases List.mem_append.mp he2 with he2 | he2
              · exact h'.emitLink e he2
              · rcases List.mem_singleton.mp he2 with rfl
                exact hnewEmit
            · simp only [List.map_append, h'.transcriptLink, List.map_cons,
                List.map_nil]
          · have he : run_asr id now (AsrOutcome.ok (some tRes)) s =
                { s with
                  transcript := s.transcript ++
                    [Payload.mk 200 (round3 stv) (round3 (stv + tRes.duration)) tRes.text]
                  emitLog := s.emitLog ++ [(id, stv)]
                  scratch_buffer := 0
                  file_counter := s.file_counter + 1
                  tasks := removeTask id s.tasks
                  inFlight := removeFlight id s.inFlight } := by
              simp [run_asr, hf, hst, setFlagIfCurrent, setStartTimeIfCurrent, hg]
            rw [he]
            refine ⟨h'.lastZero, h'.idBound, h'.slMono, h'.slBound, h'.stGE, ?_, ?_, ?_⟩
            · exact fun p hp => h'.taskLink p (mem_removeTask hp)
            · intro e he2
              rcases List.mem_append.mp he2 with he2 | he2
              · exact h'.emitLink e he2
              · rcases List.mem_singleton.mp he2 with rfl
                exact hnewEmit
            · simp only [List.map_append, h'.transcriptLink, List.map_cons,
                List.map_nil]

theorem tinv_proc {s : SessionState} {lb : ℚ} (h : TInv s lb) (now : ℚ)
    (hlb : lb ≤ now) : TInv (process_audio now s) now := by
  obtain ⟨c, v, hcv, hvv, hcases⟩ := process_audio_cases now s
  have hconnPres : ∀ ct0, s.connect_time = some ct0 → c = some ct0 := by
    intro ct0 h0
    rcases hcv with hcv | ⟨hn, _, _⟩
    · rw [← hcv, h0]
    · rw [h0] at hn
      cases hn
  have hvdom : (∀ p ∈ s.spawnLog, p.2 ≤ v) ∧ v ≤ now := by
    rcases hvv with hsome | ⟨_, rfl⟩
    · exact ⟨(h.stGE v hsome).1, le_trans (h.stGE v hsome).2 hlb⟩
    · exact ⟨fun p hp => le_trans (h.slBound p hp) hlb, le_refl _⟩
  rcases hcases with ⟨hlen, he⟩ | ⟨hlen, he⟩ <;> rw [he]
  · have hsp : promote { s with connect_time := c, strategy := { s.strategy with start_time := some v } } =
        { s with
          connect_time := c
          scratch_buffer := s.scratch_buffer + s.buffer
          buffer := 0
          strategy := { s.strategy with processing_flag := true, start_time := none }
          tasks := s.tasks ++ [(s.nextTaskId, { gen := s.gen, startTime := v, defaultStartTime := s.last_start_time, chunk_offset_seconds := s.strategy.chunk_offset_seconds, stage := TaskStage.beforeVad })]
          nextTaskId := s.nextTaskId + 1
          warnings := s.warnings + (if s.strategy.processing_flag then 1 else 0)
          spawnLog := s.spawnLog ++ [(s.nextTaskId, v)] } := by
      simp [promote]
    rw [hsp]
    refine ⟨h.lastZero, ?_, ?_, ?_, ?_, ?_, ?_, h.transcriptLink⟩
    · intro p hp
      rcases List.mem_append.mp hp with hp | hp
      · exact Nat.lt_succ_of_lt (h.idBound p hp)
      · rcases List.mem_singleton.mp hp with rfl
        exact Nat.lt_succ_self _
    · refine List.pairwise_append.mpr ⟨h.slMono, List.pairwise_singleton _ _, ?_⟩
      intro p hp q hq
      rcases List.mem_singleton.mp hq with rfl
      exact ⟨h.idBound p hp, hvdom.1 p hp⟩
    · intro p hp
      rcases List.mem_append.mp hp with hp | hp
      · exact le_trans (h.slBound p hp) hlb
      · rcases List.mem_singleton.mp hp with rfl
        exact hvdom.2
    · intro v0 hv0
      cases hv0
    · intro p hp
      rcases List.mem_append.mp hp with hp | hp
      · obtain ⟨hm, hd, hs⟩ := h.taskLink p hp
        refine ⟨List.mem_append_left _ hm, hd, ?_⟩
        intro stv hstv
        obtain ⟨ct, hcn, heq⟩ := hs stv hstv
        exact ⟨ct, hconnPres ct hcn, heq⟩
      · rcases List.mem_singleton.mp hp with rfl
        refine ⟨List.mem_append_right _ (List.mem_singleton.mpr rfl), h.lastZero, ?_⟩
        intro stv hstv
        cases hstv
    · intro e he2
      obtain ⟨v0, ct, hcn, hm, heq⟩ := h.emitLink e he2
      exact ⟨v0, ct, hconnPres ct hcn, List.mem_append_left _ hm, heq⟩
  · refine ⟨h.lastZero, h.idBound, h.slMono,
      fun p hp => le_trans (h.slBound p hp) hlb, ?_, ?_, ?_, h.transcriptLink⟩
    · intro v0 hv0
      injection hv0 with hv0
      subst hv0
      exact hvdom
    · intro p hp
      obtain ⟨hm, hd, hs⟩ := h.taskLink p hp
      refine ⟨hm, hd, ?_⟩
      intro stv hstv
      obtain ⟨ct, hcn, heq⟩ := hs stv hstv
      exact ⟨ct, hconnPres ct hcn, heq⟩
    · intro e he2
      obtain ⟨v0, ct, hcn, hm, heq⟩ := h.emitLink e he2
      exact ⟨v0, ct, hconnPres ct hcn, hm, heq⟩

theorem tinv_run {lb : ℚ} (evs : List Ev) {s : SessionState} (h : TInv s lb)
    (ht : timesMono lb evs = true) : ∃ lb2, TInv (run s evs) lb2 := by
  induction evs generalizing s lb with
  | nil => exact ⟨lb, h⟩
  | cons e es ih =>
    rw [run]
    cases e with
    | append n =>
      exact ih (tinv_append h n) (by simpa [timesMono, evTime] using ht)
    | procAudio now =>
      have ht2 : (lb ≤ now) ∧ timesMono now es = true := by
        simpa [timesMono, evTime, Bool.and_eq_true, decide_eq_true_eq] using ht
      exact ih (tinv_proc h now ht2.1) ht2.2
    | runVad id r =>
      exact ih (tinv_runVad h id r) (by simpa [timesMono, evTime] using ht)
    | runAsr id now r =>
      have ht2 : (lb ≤ now) ∧ timesMono now es = true := by
        simpa [timesMono, evTime, Bool.and_eq_true, decide_eq_true_eq] using ht
      exact ih (tinv_runAsr h id now r ht2.1) ht2.2
    | updateConfig cl co =>
      exact ih (tinv_update h cl co) (by simpa [timesMono, evTime] using ht)

/-- The C7 counterexample schedule: two chunks are promoted (at times 0
and 4) while the first recognition is still in flight — which the code
permits, see C1 — and the second recognition finishes first (time 5),
before the first one (time 6).  All wall-clock readings are
non-decreasing. -/
def c7Events : List Ev :=
  [Ev.append 102400, Ev.procAudio 0,
   Ev.runVad 0 (VadOutcome.ok [⟨0, 16/5, 1⟩]),
   Ev.append 102400, Ev.procAudio 4,
   Ev.runVad 1 (VadOutcome.ok [⟨0, 32/5, 1⟩]),
   Ev.runAsr 1 5 (AsrOutcome.ok (some ⟨"b", 1⟩)),
   Ev.runAsr 0 6 (AsrOutcome.ok (some ⟨"a", 1⟩))]

/-- C7 counterexample: under a monotone wall clock the session emits two
Result messages whose `startTime`s are, in emission order, 4 then 0 —
the message emitted first has a strictly larger `startTimeSeconds`,
refuting "consecutive results are non-decreasing in startTimeSeconds". -/
theorem C7_counterexample :
    timesMono 0 c7Events = true ∧
    (run initialState c7Events).transcript.map Payload.startTime = [4, 0] ∧
    ¬ ((4 : ℚ) ≤ 0) := by
  refine ⟨?_, ?_, by norm_num⟩
  · norm_num [c7Events, timesMono, evTime]
  · norm_num [c7Events, run, step, process_audio, touch_connect_time, touch_start_time,
      promote, run_vad, run_asr, findTask, removeTask, updateTask, removeFlight,
      setFlagIfCurrent, setStartTimeIfCurrent, lastEndSec, last_segment_should_end_before,
      start_transcribe_time, pyInt, round3, roundHalfEven, append_audio_data,
      chunk_length_in_bytes, initialState, Client.init, SilenceAtEndOfChunk.init]

/-- C7 (amended): under a monotone wall clock the emitted `startTime`
column equals the rounded `start_transcribe_time` of the emission log, and
any two Result messages of one session are ordered by their *promotion*
order: the message whose recognition attempt was promoted first (smaller
spawn id) has the smaller-or-equal `startTimeSeconds`.  Emission order,
however, can invert promotion order when two recognitions are in flight
(see the counterexample), so ordering by emission does not hold. -/
theorem C7_amended (lb : ℚ) (evs : List Ev)
    (ht : timesMono lb evs = true) :
    (run initialState evs).transcript.map Payload.startTime =
      (run initialState evs).emitLog.map (fun e => round3 e.2) ∧
    ∀ e1 ∈ (run initialState evs).emitLog,
      ∀ e2 ∈ (run initialState evs).emitLog,
        e1.1 ≤ e2.1 → round3 e1.2 ≤ round3 e2.2 := by
  obtain ⟨lb2, hInv⟩ := tinv_run evs (tinv_initial lb) ht
  refine ⟨hInv.transcriptLink, ?_⟩
  intro e1 h1 e2 h2 hle
  obtain ⟨v1, ct1, hc1, hm1, he1⟩ := hInv.emitLink e1 h1
  obtain ⟨v2, ct2, hc2, hm2, he2⟩ := hInv.emitLink e2 h2
  have hct : ct1 = ct2 := by
    rw [hc1] at hc2
    exact Option.some.inj hc2
  subst hct
  rcases lt_or_eq_of_le hle with hlt | heq
  · have hv : v1 ≤ v2 :=
      pairwise_key_mono hInv.slMono (e1.1, v1) hm1 (e2.1, v2) hm2 hlt
    rw [he1, he2]
    apply round3_mono
    exact_mod_cast pyInt_mono (by linarith : v1 - ct1 ≤ v2 - ct1)
  · have hv : v1 = v2 :=
      pairwise_key_eq hInv.slMono (e1.1, v1) hm1 (e2.1, v2) hm2 heq
    rw [he1, he2, hv]

/-- Witness for C7 at the counterexample schedule: its clock readings are
monotone, so the amended ordering holds for it (by promotion order). -/
theorem C7_amended_witness :
    timesMono 0 c7Events = true ∧
    ((run initialState c7Events).transcript.map Payload.startTime =
      (run initialState c7Events).emitLog.map (fun e => round3 e.2) ∧
     ∀ e1 ∈ (run initialState c7Events).emitLog,
       ∀ e2 ∈ (run initialState c7Events).emitLog,
         e1.1 ≤ e2.1 → round3 e1.2 ≤ round3 e2.2) :=
  ⟨by norm_num [c7Events, timesMono, evTime],
   C7_amended 0 c7Events (by norm_num [c7Events, timesMono, evTime])⟩

/-! ### C5 — byte accounting -/

theorem mem_eq_of_length_le_one {α : Type} {l : List α} {a b : α}
    (hlen : l.length ≤ 1) (ha : a ∈ l) (hb : b ∈ l) : a = b := by
  cases l with
  | nil => cases ha
  | cons x xs =>
    cases xs with
    | nil =>
      rw [List.mem_singleton] at ha hb
      rw [ha, hb]
    | cons y ys =>
      exfalso
      simp only [List.length_cons] at hlen
      omega

theorem eq_singleton_of_length_le_one {α : Type} {l : List α} {a : α}
    (hlen : l.length ≤ 1) (ha : a ∈ l) : l = [a] := by
  cases l with
  | nil => cases ha
  | cons x xs =>
    cases xs with
    | nil =>
      rw [List.mem_singleton] at ha
      rw [ha]
    | cons y ys =>
      exfalso
      simp only [List.length_cons] at hlen
      omega

theorem length_removeTask_le (id : Nat) (ts : List (Nat × Task)) :
    (removeTask id ts).length ≤ ts.length := by
  induction ts with
  | nil => exact Nat.le_refl _
  | cons p ts ih =>
    obtain ⟨k, t⟩ := p
    by_cases hk : k = id <;> simp [removeTask, hk] <;> omega

theorem length_updateTask (id : Nat) (t1 : Task) (ts : List (Nat × Task)) :
    (updateTask id t1 ts).length = ts.length := by
  induction ts with
  | nil => rfl
  | cons p ts ih =>
    obtain ⟨k, t⟩ := p
    by_cases hk : k = id <;> simp [updateTask, hk, ih]

theorem mem_removeTask_ne {id : Nat} {ts : List (Nat × Task)} {p : Nat × Task}
    (h : p ∈ removeTask id ts) : p.1 ≠ id := by
  induction ts with
  | nil => cases h
  | cons q ts ih =>
    obtain ⟨k, t0⟩ := q
    by_cases hk : k = id
    · simp only [removeTask] at h
      rw [if_pos hk] at h
      exact ih h
    · simp only [removeTask] at h
      rw [if_neg hk] at h
      rcases List.mem_cons.mp h with h2 | h2
      · rw [h2]
        exact hk
      · exact ih h2

/-- Byte-conservation invariant maintained along sequential,
exception-free schedules: the ledger identity — bytes appended plus the
bytes of the attempt currently between the start of its `transcribe` call
and its completion (`flightSum`, counted both in `deliveredBytes` and
still in the working buffer) equal bytes delivered plus both buffers plus
the discarded bytes; at most one task in flight; every ledger entry
belongs to a pending attempt suspended at the `transcribe` await and its
byte count is exactly the current working buffer; every attempt suspended
at the `transcribe` await has its ledger entry; and the ledger has at
most one entry. -/
structure CInv (s : SessionState) : Prop where
  ledger : s.session_audio_buffer + flightSum s.inFlight =
    s.deliveredBytes + s.buffer + s.scratch_buffer + s.discardedBytes
  taskBound : s.tasks.length ≤ 1
  flightTask : ∀ e ∈ s.inFlight, e.2 = s.scratch_buffer ∧
    ∃ t, findTask e.1 s.tasks = some t ∧ ∃ stv, t.stage = TaskStage.beforeAsr stv
  taskFlight : ∀ p ∈ s.tasks, ∀ stv, p.2.stage = TaskStage.beforeAsr stv →
    (p.1, s.scratch_buffer) ∈ s.inFlight
  flightBound : s.inFlight.length ≤ 1

theorem cinv_initial : CInv initialState := by
  refine ⟨?_, ?_, ?_, ?_, ?_⟩
  · norm_num [initialState, Client.init, flightSum]
  · norm_num [initialState, Client.init]
  · intro e he
    simp [initialState, Client.init] at he
  · intro p hp
    simp [initialState, Client.init] at hp
  · norm_num [initialState, Client.init]

theorem cinv_append {s : SessionState} (h : CInv s) (n : Nat) :
    CInv (append_audio_data n s) := by
  refine ⟨?_, h.taskBound, h.flightTask, h.taskFlight, h.flightBound⟩
  have h0 := h.ledger
  simp only [append_audio_data]
  omega

theorem cinv_update {s : SessionState} (h : CInv s) (cl co : ℚ) :
    CInv (update_config cl co s) :=
  ⟨h.ledger, h.taskBound, h.flightTask, h.taskFlight, h.flightBound⟩

theorem cinv_no_flight_of_beforeVad {s : SessionState} (h : CInv s)
    {id : Nat} {t : Task} (hf : findTask id s.tasks = some t)
    (hst : t.stage = TaskStage.beforeVad) : s.inFlight = [] := by
  cases hfl : s.inFlight with
  | nil => rfl
  | cons e es =>
    exfalso
    have he := h.flightTask e (by rw [hfl]; exact List.mem_cons_self _ _)
    obtain ⟨_, t', hft', stv, hst'⟩ := he
    have h1 := findTask_mem hf
    have h2 := findTask_mem hft'
    have h3 := mem_eq_of_length_le_one h.taskBound h1 h2
    rw [Prod.mk.injEq] at h3
    rw [h3.2] at hst
    rw [hst] at hst'
    exact TaskStage.noConfusion hst'

theorem cinv_of_empty_flight {s : SessionState} (h : CInv s)
    (hfl : s.inFlight = []) (s' : SessionState)
    (hled : s'.session_audio_buffer + flightSum s'.inFlight =
      s'.deliveredBytes + s'.buffer + s'.scratch_buffer + s'.discardedBytes)
    (hsub : ∀ p ∈ s'.tasks, p ∈ s.tasks)
    (htl : s'.tasks.length ≤ s.tasks.length)
    (hifl : s'.inFlight = []) : CInv s' := by
  refine ⟨hled, le_trans htl h.taskBound, ?_, ?_, ?_⟩
  · intro e he
    rw [hifl] at he
    cases he
  · intro p hp stv hstv
    exfalso
    have h2 := h.taskFlight p (hsub p hp) stv hstv
    rw [hfl] at h2
    cases h2
  · rw [hifl]
    norm_num

theorem cinv_asr_complete {s : SessionState} (h : CInv s) {id : Nat} {t : Task}
    {stv : ℚ} (hf : findTask id s.tasks = some t)
    (hst : t.stage = TaskStage.beforeAsr stv)
    (s' : SessionState)
    (hb : s'.session_audio_buffer = s.session_audio_buffer)
    (hd : s'.deliveredBytes = s.deliveredBytes)
    (hbu : s'.buffer = s.buffer)
    (hsc : s'.scratch_buffer = 0)
    (hdi : s'.discardedBytes = s.discardedBytes)
    (hts : s'.tasks = removeTask id s.tasks)
    (hifl : s'.inFlight = removeFlight id s.inFlight) : CInv s' := by
  have hmem : (id, s.scratch_buffer) ∈ s.inFlight :=
    h.taskFlight (id, t) (findTask_mem hf) stv hst
  have hfl2 : s.inFlight = [(id, s.scratch_buffer)] :=
    eq_singleton_of_length_le_one h.flightBound hmem
  have hrf : removeFlight id s.inFlight = [] := by
    rw [hfl2]
    simp [removeFlight]
  refine ⟨?_, ?_, ?_, ?_, ?_⟩
  · rw [hb, hd, hbu, hsc, hdi, hifl, hrf]
    have h0 := h.ledger
    rw [hfl2] at h0
    simp only [flightSum] at h0 ⊢
    omega
  · rw [hts]
    exact le_trans (length_removeTask_le id s.tasks) h.taskBound
  · intro e he2
    rw [hifl, hrf] at he2
    cases he2
  · intro p hp stv' hstv'
    exfalso
    rw [hts] at hp
    have hne := mem_removeTask_ne hp
    have h2 := h.taskFlight p (mem_removeTask hp) stv' hstv'
    rw [hfl2, List.mem_singleton] at h2
    rw [Prod.mk.injEq] at h2
    exact hne h2.1
  · rw [hifl, hrf]
    norm_num

theorem cinv_proc {s : SessionState} (h : CInv s) (now : ℚ)
    (hseq : chunk_length_in_bytes s < (s.buffer : ℚ) → s.tasks = []) :
    CInv (process_audio now s) := by
  obtain ⟨c, v, _, _, hcases⟩ := process_audio_cases now s
  rcases hcases with ⟨hlen, he⟩ | ⟨hlen, he⟩ <;> rw [he]
  · have ht0 : s.tasks = [] := hseq hlen
    have hfl : s.inFlight = [] := by
      cases hfl2 : s.inFlight with
      | nil => rfl
      | cons e es =>
        exfalso
        obtain ⟨_, t', hft', _⟩ :=
          h.flightTask e (by rw [hfl2]; exact List.mem_cons_self _ _)
        rw [ht0] at hft'
        simp [findTask] at hft'
    have hsp : promote { s with connect_time := c, strategy := { s.strategy with start_time := some v } } =
        { s with
          connect_time := c
          scratch_buffer := s.scratch_buffer + s.buffer
          buffer := 0
          strategy := { s.strategy with processing_flag := true, start_time := none }
          tasks := s.tasks ++ [(s.nextTaskId, { gen := s.gen, startTime := v, defaultStartTime := s.last_start_time, chunk_offset_seconds := s.strategy.chunk_offset_seconds, stage := TaskStage.beforeVad })]
          nextTaskId := s.nextTaskId + 1
          warnings := s.warnings + (if s.strategy.processing_flag then 1 else 0)
          spawnLog := s.spawnLog ++ [(s.nextTaskId, v)] } := by
      simp [promote]
    rw [hsp]
    refine ⟨?_, ?_, ?_, ?_, ?_⟩
    · have h0 := h.ledger
      rw [hfl] at h0
      simp only [flightSum] at h0
      simp only [hfl, flightSum]
      omega
    · simp [ht0]
    · intro e he2
      have he3 : e ∈ s.inFlight := he2
      rw [hfl] at he3
      cases he3
    · intro p hp stv hstv
      have hp2 : p ∈ s.tasks ++ [(s.nextTaskId, { gen := s.gen, startTime := v, defaultStartTime := s.last_start_time, chunk_offset_seconds := s.strategy.chunk_offset_seconds, stage := TaskStage.beforeVad })] := hp
      rw [ht0, List.nil_append, List.mem_singleton] at hp2
      rw [hp2] at hstv
      simp at hstv
    · exact h.flightBound
  · exact ⟨h.ledger, h.taskBound, h.flightTask, h.taskFlight, h.flightBound⟩

theorem cinv_runVad {s : SessionState} (h : CInv s) (id : Nat) (r : VadOutcome)
    (hr : r ≠ VadOutcome.raised) : CInv (run_vad id r s) := by
  cases hf : findTask id s.tasks with
  | none =>
    have he : run_vad id r s = s := by simp [run_vad, hf]
    rw [he]
    exact h
  | some t =>
    cases hst : t.stage with
    | beforeAsr stv =>
      have he : run_vad id r s = s := by simp [run_vad, hf, hst]
      rw [he]
      exact h
    | beforeVad =>
      have hfl : s.inFlight = [] := cinv_no_flight_of_beforeVad h hf hst
      cases hcn : s.connect_time with
      | none =>
        have he : run_vad id r s = { s with tasks := removeTask id s.tasks } := by
          simp [run_vad, hf, hst, hcn]
        rw [he]
        exact cinv_of_empty_flight h hfl _ h.ledger
          (fun p hp => mem_removeTask hp) (length_removeTask_le id s.tasks) hfl
      | some ct =>
        cases r with
        | raised => exact absurd rfl hr
        | ok l =>
          cases l with
          | nil =>
            rcases eq_or_ne s.gen t.gen with hg | hg
            · have he : run_vad id (VadOutcome.ok []) s =
                  { s with
                    discardedBytes := s.discardedBytes + s.scratch_buffer + s.buffer
                    scratch_buffer := 0
                    buffer := 0
                    tasks := removeTask id s.tasks
                    strategy := { s.strategy with processing_flag := false } } := by
                simp [run_vad, hf, hst, hcn, setFlagIfCurrent, hg]
              rw [he]
              refine cinv_of_empty_flight h hfl _ ?_
                (fun p hp => mem_removeTask hp) (length_removeTask_le id s.tasks) hfl
              have h0 := h.ledger
              rw [hfl] at h0
              simp only [flightSum] at h0
              simp only [hfl, flightSum]
              omega
            · have he : run_vad id (VadOutcome.ok []) s =
                  { s with
                    discardedBytes := s.discardedBytes + s.scratch_buffer + s.buffer
                    scratch_buffer := 0
                    buffer := 0
                    tasks := removeTask id s.tasks } := by
                simp [run_vad, hf, hst, hcn, setFlagIfCurrent, hg]
              rw [he]
              refine cinv_of_empty_flight h hfl _ ?_
                (fun p hp => mem_removeTask hp) (length_removeTask_le id s.tasks) hfl
              have h0 := h.ledger
              rw [hfl] at h0
              simp only [flightSum] at h0
              simp only [hfl, flightSum]
              omega
          | cons i is =>
            by_cases hcond : (lastEndSec i is < last_segment_should_end_before s t ∨
                last_segment_should_end_before s t > 2)
            · have he : run_vad id (VadOutcome.ok (i :: is)) s =
                  { s with tasks := updateTask id { t with stage := TaskStage.beforeAsr (start_transcribe_time s t) } s.tasks,
                           deliveredBytes := s.deliveredBytes + s.scratch_buffer,
                           inFlight := s.inFlight ++ [(id, s.scratch_buffer)] } := by
                simp [run_vad, hf, hst, hcn, if_pos hcond]
              rw [he]
              refine ⟨?_, ?_, ?_, ?_, ?_⟩
              · have h0 := h.ledger
                rw [hfl] at h0
                simp only [flightSum] at h0
                simp only [hfl, flightSum, List.nil_append]
                omega
              · exact le_trans (le_of_eq (length_updateTask id _ s.tasks)) h.taskBound
              · intro e he2
                have he3 : e ∈ s.inFlight ++ [(id, s.scratch_buffer)] := he2
                rw [hfl, List.nil_append, List.mem_singleton] at he3
                subst he3
                have hft := findTask_updateTask_self id
                  { t with stage := TaskStage.beforeAsr (start_transcribe_time s t) } s.tasks
                rw [hf] at hft
                simp only [Option.map_some'] at hft
                exact ⟨rfl, _, hft, start_transcribe_time s t, rfl⟩
              · intro p hp stv2 hstv2
                have hp2 : p ∈ updateTask id { t with stage := TaskStage.beforeAsr (start_transcribe_time s t) } s.tasks := hp
                rcases mem_updateTask hp2 with hpe | hmem
                · rw [hpe]
                  exact List.mem_append_right _ (List.mem_singleton.mpr rfl)
                · exfalso
                  have h2 := h.taskFlight p hmem stv2 hstv2
                  rw [hfl] at h2
                  cases h2
              · have hb2 : s.inFlight ++ [(id, s.scratch_buffer)] = [(id, s.scratch_buffer)] := by
                  rw [hfl, List.nil_append]
                show (s.inFlight ++ [(id, s.scratch_buffer)]).length ≤ 1
                rw [hb2]
                norm_num
            · rcases eq_or_ne s.gen t.gen with hg | hg
              · have he : run_vad id (VadOutcome.ok (i :: is)) s =
                    { s with tasks := removeTask id s.tasks,
                             strategy := { s.strategy with processing_flag := false } } := by
                  simp [run_vad, hf, hst, hcn, if_neg hcond, setFlagIfCurrent, hg]
                rw [he]
                exact cinv_of_empty_flight h hfl _ h.ledger
                  (fun p hp => mem_removeTask hp) (length_removeTask_le id s.tasks) hfl
              · have he : run_vad id (VadOutcome.ok (i :: is)) s =
                    { s with tasks := removeTask id s.tasks } := by
                  simp [run_vad, hf, hst, hcn, if_neg hcond, setFlagIfCurrent, hg]
                rw [he]
                exact cinv_of_empty_flight h hfl _ h.ledger
                  (fun p hp => mem_removeTask hp) (length_removeTask_le id s.tasks) hfl

theorem cinv_runAsr {s : SessionState} (h : CInv s) (id : Nat) (now : ℚ)
    (r : AsrOutcome) (hr : r ≠ AsrOutcome.raised) : CInv (run_asr id now r s) := by
  cases hf : findTask id s.tasks with
  | none =>
    have he : run_asr id now r s = s := by simp [run_asr, hf]
    rw [he]
    exact h
  | some t =>
    cases hst : t.stage with
    | beforeVad =>
      have he : run_asr id now r s = s := by simp [run_asr, hf, hst]
      rw [he]
      exact h
    | beforeAsr stv =>
      cases r with
      | raised => exact absurd rfl hr
      | ok tr =>
        cases tr with
        | none =>
          rcases eq_or_ne s.gen t.gen with hg | hg
          · have he : run_asr id now (AsrOutcome.ok none) s =
                { s with
                  scratch_buffer := 0
                  file_counter := s.file_counter + 1
                  tasks := removeTask id s.tasks
                  inFlight := removeFlight id s.inFlight
                  strategy := { s.strategy with processing_flag := false } } := by
              simp [run_asr, hf, hst, setFlagIfCurrent, hg]
            rw [he]
            exact cinv_asr_complete h hf hst _ rfl rfl rfl rfl rfl rfl rfl
          · have he : run_asr id now (AsrOutcome.ok none) s =
                { s with
                  scratch_buffer := 0
                  file_counter := s.file_counter + 1
                  tasks := removeTask id s.tasks
                  inFlight := removeFlight id s.inFlight } := by
              simp [run_asr, hf, hst, setFlagIfCurrent, hg]
            rw [he]
            exact cinv_asr_complete h hf hst _ rfl rfl rfl rfl rfl rfl rfl
        | some tRes =>
          rcases eq_or_ne s.gen t.gen with hg | hg
          · have he : run_asr id now (AsrOutcome.ok (some tRes)) s =
                { s with
                  transcript := s.transcript ++
                    [Payload.mk 200 (round3 stv) (round3 (stv + tRes.duration)) tRes.text]
                  emitLog := s.emitLog ++ [(id, stv)]
                  scratch_buffer := 0
                  file_counter := s.file_counter + 1
                  tasks := removeTask id s.tasks
                  inFlight := removeFlight id s.inFlight
                  strategy := { s.strategy with start_time := some now, processing_flag := false } } := by
              simp [run_asr, hf, hst, setFlagIfCurrent, setStartTimeIfCurrent, hg]
            rw [he]
            exact cinv_asr_complete h hf hst _ rfl rfl rfl rfl rfl rfl rfl
          · have he : run_asr id now (AsrOutcome.ok (some tRes)) s =
                { s with
                  transcript := s.transcript ++
                    [Payload.mk 200 (round3 stv) (round3 (stv + tRes.duration)) tRes.text]
                  emitLog := s.emitLog ++ [(id, stv)]
                  scratch_buffer := 0
                  file_counter := s.file_counter + 1
                  tasks := removeTask id s.tasks
                  inFlight := removeFlight id s.inFlight } := by
              simp [run_asr, hf, hst, setFlagIfCurrent, setStartTimeIfCurrent, hg]
            rw [he]
            exact cinv_asr_complete h hf hst _ rfl rfl rfl rfl rfl rfl rfl

theorem cinv_run (evs : List Ev) {s : SessionState} (h : CInv s)
    (hseq : seqOk s evs = true) : CInv (run s evs) := by
  induction evs generalizing s with
  | nil => exact h
  | cons e es ih =>
    rw [run]
    cases e with
    | append n =>
      exact ih (cinv_append h n) (by simpa [seqOk, step] using hseq)
    | procAudio now =>
      have h2 : ((s.buffer : ℚ) ≤ chunk_length_in_bytes s ∨ s.tasks = []) ∧
          seqOk (process_audio now s) es = true := by
        simpa [seqOk, step, Bool.and_eq_true, decide_eq_true_eq] using hseq
      refine ih (cinv_proc h now fun hlen => ?_) h2.2
      rcases h2.1 with h3 | h3
      · exact absurd hlen (not_lt.mpr h3)
      · exact h3
    | runVad id r =>
      have h2 : (r ≠ VadOutcome.raised) ∧ seqOk (run_vad id r s) es = true := by
        simpa [seqOk, step, Bool.and_eq_true, decide_eq_true_eq] using hseq
      exact ih (cinv_runVad h id r h2.1) h2.2
    | runAsr id now r =>
      have h2 : (r ≠ AsrOutcome.raised) ∧ seqOk (run_asr id now r s) es = true := by
        simpa [seqOk, step, Bool.and_eq_true, decide_eq_true_eq] using hseq
      exact ih (cinv_runAsr h id now r h2.1) h2.2
    | updateConfig cl co =>
      exact ih (cinv_update h cl co) (by simpa [seqOk, step] using hseq)

/-- The double-delivery schedule: a second chunk is promoted at time 4
while the first recognition attempt is still awaiting the recognizer
(which the code permits, see C1), so the second `transcribe` call is
handed a working buffer still holding the first chunk's 102400 bytes on
top of the new 102400. -/
def c5Events : List Ev :=
  [Ev.append 102400, Ev.procAudio 0,
   Ev.runVad 0 (VadOutcome.ok [⟨0, 16/5, 1⟩]),
   Ev.append 102400, Ev.procAudio 4,
   Ev.runVad 1 (VadOutcome.ok [⟨0, 32/5, 1⟩])]

/-- C5 counterexample: the conservation claim fails in both directions.
(a) Loss: 52000 bytes are appended and promoted and the detector reports
no activity; the chunk is dropped, nothing was ever delivered and both
buffers end empty, so delivered + pending + working = 0 although 52000
bytes were appended.  (b) Duplication: on the overlapping schedule
`c5Events` the recognizer is handed 102400 + 204800 = 307200 bytes
although only 204800 were ever appended — the first chunk's bytes are
delivered twice, because the first attempt's completion has not yet
cleared the working buffer (line 179) when the second attempt's
`transcribe` call starts reading it (`faster_whisper_asr.py`, line
155). -/
theorem C5_counterexample :
    ((run initialState [Ev.append 52000, Ev.procAudio 0,
        Ev.runVad 0 (VadOutcome.ok [])]).deliveredBytes +
      (run initialState [Ev.append 52000, Ev.procAudio 0,
        Ev.runVad 0 (VadOutcome.ok [])]).buffer +
      (run initialState [Ev.append 52000, Ev.procAudio 0,
        Ev.runVad 0 (VadOutcome.ok [])]).scratch_buffer = 0 ∧
     (run initialState [Ev.append 52000, Ev.procAudio 0,
        Ev.runVad 0 (VadOutcome.ok [])]).session_audio_buffer = 52000) ∧
    ((run initialState c5Events).deliveredBytes = 307200 ∧
     (run initialState c5Events).session_audio_buffer = 204800) := by
  refine ⟨⟨?_, ?_⟩, ?_, ?_⟩ <;>
    norm_num [c5Events, run, step, process_audio, touch_connect_time, touch_start_time,
      promote, run_vad, findTask, removeTask, updateTask, setFlagIfCurrent,
      lastEndSec, last_segment_should_end_before, start_transcribe_time, pyInt,
      append_audio_data, chunk_length_in_bytes, initialState, Client.init,
      SilenceAtEndOfChunk.init]

/-- C5 (amended): along schedules where recognition attempts are
sequential and exception-free (`seqOk`: a promotion occurs only when no
task is in flight, and no await raises), the byte ledger balances: the
bytes ever appended plus the bytes of the attempt currently between the
start of its `transcribe` call and its completion (counted both in
`deliveredBytes` and still in the working buffer) equal the bytes
delivered to the recognizer plus the pending and working buffers plus
the bytes discarded by the empty-VAD branch; in particular, at any
inspection point with no attempt in flight, appended = delivered +
pending + working + discarded.  Without the `seqOk` restriction the law
is false of the program: overlapping attempts deliver the same bytes
twice or destroy mid-flight promotions (see the counterexample), and a
silence-only chunk is dropped without ever being delivered. -/
theorem C5_amended (evs : List Ev) (hseq : seqOk initialState evs = true) :
    (run initialState evs).session_audio_buffer +
        flightSum (run initialState evs).inFlight =
      (run initialState evs).deliveredBytes + (run initialState evs).buffer +
        (run initialState evs).scratch_buffer +
        (run initialState evs).discardedBytes ∧
    ((run initialState evs).inFlight = [] →
      (run initialState evs).session_audio_buffer =
        (run initialState evs).deliveredBytes + (run initialState evs).buffer +
          (run initialState evs).scratch_buffer +
          (run initialState evs).discardedBytes) := by
  have h := cinv_run evs cinv_initial hseq
  refine ⟨h.ledger, fun h0 => ?_⟩
  have h1 := h.ledger
  rw [h0] at h1
  simpa [flightSum] using h1

/-- A sequential, exception-free schedule with one full successful cycle:
52000 bytes promoted at time 0, speech detected up to 1.4 s (below the
1.525 s cutoff, so recognition triggers), recognizer returns a result at
time 2. -/
def c5SeqEvents : List Ev :=
  [Ev.append 52000, Ev.procAudio 0,
   Ev.runVad 0 (VadOutcome.ok [⟨0, 7/5, 1⟩]),
   Ev.runAsr 0 2 (AsrOutcome.ok (some ⟨"ok", 1⟩))]

/-- Witness for C5 at the sequential schedule `c5SeqEvents`. -/
theorem C5_amended_witness :
    seqOk initialState c5SeqEvents = true ∧
    ((run initialState c5SeqEvents).session_audio_buffer +
        flightSum (run initialState c5SeqEvents).inFlight =
      (run initialState c5SeqEvents).deliveredBytes +
        (run initialState c5SeqEvents).buffer +
        (run initialState c5SeqEvents).scratch_buffer +
        (run initialState c5SeqEvents).discardedBytes ∧
     ((run initialState c5SeqEvents).inFlight = [] →
       (run initialState c5SeqEvents).session_audio_buffer =
         (run initialState c5SeqEvents).deliveredBytes +
           (run initialState c5SeqEvents).buffer +
           (run initialState c5SeqEvents).scratch_buffer +
           (run initialState c5SeqEvents).discardedBytes)) := by
  constructor
  · norm_num [c5SeqEvents, seqOk, run, step, process_audio, touch_connect_time,
      touch_start_time, promote, run_vad, run_asr, findTask, removeTask, updateTask,
      removeFlight, setFlagIfCurrent, setStartTimeIfCurrent, lastEndSec,
      last_segment_should_end_before, start_transcribe_time, pyInt, round3,
      roundHalfEven, append_audio_data, chunk_length_in_bytes, initialState,
      Client.init, SilenceAtEndOfChunk.init]
    refine ⟨fun hcon => ?_, fun hcon => ?_⟩ <;> cases hcon
  · refine C5_amended c5SeqEvents ?_
    norm_num [c5SeqEvents, seqOk, run, step, process_audio, touch_connect_time,
      touch_start_time, promote, run_vad, run_asr, findTask, removeTask, updateTask,
      removeFlight, setFlagIfCurrent, setStartTimeIfCurrent, lastEndSec,
      last_segment_should_end_before, start_transcribe_time, pyInt, round3,
      roundHalfEven, append_audio_data, chunk_length_in_bytes, initialState,
      Client.init, SilenceAtEndOfChunk.init]
    refine ⟨fun hcon => ?_, fun hcon => ?_⟩ <;> cases hcon

end STT
